import Mathlib

/-!
Verification of the NetHID firmware core against its specification.

This file gives a shallow embedding of the parts of the NetHID sources that
the checked properties concern:

* `src/usb.c` — the HID core: six-slot keyboard state, per-class report
  queues, the mouse accumulator, and the report emission step.
* `src/websocket/websocket.c`, `src/mqtt/mqtt.c`, `src/httpd/httpd.c` —
  the three ingress-side release-all implementations and the framed-channel
  command decoder.
* `src/settings.c` — the flash-resident settings record, its checksum and
  the typed setters.
* `src/mqtt/mqtt.c` — the connection state machine and reconnect backoff.
* `src/ap_mode.c` — the BOOTSEL long-press state machine.
* `src/hid_keys.c` — key-name resolution and execution.
* `src/httpd/httpd_server.c`, `src/httpd/httpd_websocket.c` — the
  connection pool and the WebSocket session-takeover rule.

Machine integers are modelled as `Nat`/`Int` with explicit wrapping where
the C code truncates.  Queues of the pico-sdk `queue_t` kind are modelled
as lists with an explicit capacity bound (`queueTryAdd` drops the element
when the queue is full, like `queue_try_add`).
-/

namespace NetHid

/-- Capacity-bounded enqueue, mirroring `queue_try_add` from the pico-sdk:
the element is appended only when the queue holds fewer than `cap` items,
otherwise it is silently dropped. -/
def queueTryAdd (q : List α) (cap : Nat) (x : α) : List α :=
  if q.length < cap then q ++ [x] else q

/-- State of the HID core from `src/usb.c`: the six-byte `keycodes` array,
the four report queues (`fifo_keyboard`, `fifo_consumer`, `fifo_system`,
`fifo_mouse_btn`) and the mouse accumulator `mouse_acc`.  Keycode slots
store byte values; the accumulator deltas are the C `int32_t` fields. -/
structure UsbState where
  mounted : Bool
  keycodes : List Nat
  fifoKeyboard : List (List Nat)
  fifoConsumer : List Nat
  fifoSystem : List Nat
  fifoMouseBtn : List Nat
  accDx : Int
  accDy : Int
  accV : Int
  accH : Int
  accButtons : Nat
  lastSentButtons : Nat
  deriving Repr, DecidableEq

/-- The state right after `tud_mount_cb`: queues initialised empty, the
accumulator zeroed, device mounted (the `keycodes` array is zero at boot). -/
def mountedInit : UsbState :=
  { mounted := true
    keycodes := [0, 0, 0, 0, 0, 0]
    fifoKeyboard := []
    fifoConsumer := []
    fifoSystem := []
    fifoMouseBtn := []
    accDx := 0, accDy := 0, accV := 0, accH := 0
    accButtons := 0, lastSentButtons := 0 }

/-- The second loop of `press_key`: place `key` in the first zero slot,
reporting whether a slot was found.  (`keycodes[i] = key` stores the low
byte of the 16-bit argument, hence `key % 256`.) -/
def setFirstZero (ks : List Nat) (key : Nat) : List Nat × Bool :=
  match ks with
  | [] => ([], false)
  | k :: rest =>
      if k = 0 then (key % 256 :: rest, true)
      else
        let r := setFirstZero rest key
        (k :: r.1, r.2)

/-- The loop of `depress_key`: zero the first slot whose (byte) value
equals `key`, reporting whether one was found. -/
def zeroFirstEq (ks : List Nat) (key : Nat) : List Nat × Bool :=
  match ks with
  | [] => ([], false)
  | k :: rest =>
      if k = key then (0 :: rest, true)
      else
        let r := zeroFirstEq rest key
        (k :: r.1, r.2)

/-- `press_key` from `src/usb.c`.  No-op when unmounted; no-op when the key
is already held; otherwise the key goes into the first free slot and, if a
slot was found, the whole six-slot snapshot is enqueued (dropped when the
keyboard queue is full). -/
def pressKey (key : Nat) (s : UsbState) : UsbState :=
  if ¬s.mounted then s
  else if key ∈ s.keycodes then s
  else if (setFirstZero s.keycodes key).2 then
    { s with
      keycodes := (setFirstZero s.keycodes key).1
      fifoKeyboard := queueTryAdd s.fifoKeyboard 32 (setFirstZero s.keycodes key).1 }
  else s

/-- `depress_key` from `src/usb.c`: zero the first slot holding `key` and,
if one was found, enqueue the whole snapshot. -/
def depressKey (key : Nat) (s : UsbState) : UsbState :=
  if ¬s.mounted then s
  else if (zeroFirstEq s.keycodes key).2 then
    { s with
      keycodes := (zeroFirstEq s.keycodes key).1
      fifoKeyboard := queueTryAdd s.fifoKeyboard 32 (zeroFirstEq s.keycodes key).1 }
  else s

/-- `move_mouse` from `src/usb.c`: when the button mask changes, the new
mask is pushed to the 8-deep transition queue (`queue_try_add`, so dropped
when full); the deltas are summed into the accumulator. -/
def moveMouse (buttons : Nat) (x y v h : Int) (s : UsbState) : UsbState :=
  if ¬s.mounted then s
  else
    { s with
      fifoMouseBtn := if buttons ≠ s.accButtons then queueTryAdd s.fifoMouseBtn 8 buttons
                      else s.fifoMouseBtn
      accButtons := buttons
      accDx := s.accDx + x
      accDy := s.accDy + y
      accV := s.accV + v
      accH := s.accH + h }

/-- `press_consumer`: enqueue the 16-bit usage code. -/
def pressConsumer (code : Nat) (s : UsbState) : UsbState :=
  if ¬s.mounted then s
  else { s with fifoConsumer := queueTryAdd s.fifoConsumer 32 code }

/-- `release_consumer`: enqueue a zero code. -/
def releaseConsumer (s : UsbState) : UsbState :=
  if ¬s.mounted then s
  else { s with fifoConsumer := queueTryAdd s.fifoConsumer 32 0 }

/-- `press_system`: enqueue `(uint8_t)(code - 0x80)` — usage-base
subtraction reduced to a byte. -/
def pressSystem (code : Nat) (s : UsbState) : UsbState :=
  if ¬s.mounted then s
  else
    let v := (((code : Int) - 0x80).emod 256).toNat
    { s with fifoSystem := queueTryAdd s.fifoSystem 32 v }

/-- `release_system`: enqueue a zero report value. -/
def releaseSystem (s : UsbState) : UsbState :=
  if ¬s.mounted then s
  else { s with fifoSystem := queueTryAdd s.fifoSystem 32 0 }

/-- `mouse_has_pending` from `src/usb.c`. -/
def mouseHasPending (s : UsbState) : Bool :=
  ¬s.fifoMouseBtn.isEmpty || s.accDx ≠ 0 || s.accDy ≠ 0 ||
    s.accV ≠ 0 || s.accH ≠ 0 || s.accButtons ≠ s.lastSentButtons

/-- Reduction of a C `int32_t` value to `int16_t` (two's-complement
truncation, as happens when `mouse_acc.dx` is passed to `clamp8`). -/
def wrap16 (v : Int) : Int :=
  (v + 32768).emod 65536 - 32768

/-- `clamp8` from `src/usb.c` applied to an accumulator field: the value is
first truncated to `int16_t` by the call, then saturated to ±127. -/
def clamp8 (v : Int) : Int :=
  let w := wrap16 v
  if w > 127 then 127 else if w < -127 then -127 else w

/-- One emitted HID mouse report: the button field, the four clipped delta
components, and whether the button field was popped from the transition
queue (as opposed to read from the accumulator). -/
structure MouseReport where
  buttons : Nat
  dx : Int
  dy : Int
  dv : Int
  dh : Int
  fromQueue : Bool
  deriving Repr, DecidableEq

/-- The `REPORT_ID_MOUSE` branch of `send_events`: when anything is
pending, clip the deltas to ±127, take the button field from the head of
the transition queue when nonempty (else the accumulator mask), emit one
report, and subtract the emitted amounts from the accumulator. -/
def sendMouse (s : UsbState) : UsbState × Option MouseReport :=
  if mouseHasPending s then
    let cx := clamp8 s.accDx
    let cy := clamp8 s.accDy
    let cv := clamp8 s.accV
    let ch := clamp8 s.accH
    match s.fifoMouseBtn with
    | [] =>
        let rep : MouseReport :=
          { buttons := s.accButtons, dx := cx, dy := cy, dv := cv, dh := ch, fromQueue := false }
        ({ s with
            accDx := s.accDx - cx, accDy := s.accDy - cy
            accV := s.accV - cv, accH := s.accH - ch
            lastSentButtons := s.accButtons }, some rep)
    | b :: rest =>
        let rep : MouseReport :=
          { buttons := b, dx := cx, dy := cy, dv := cv, dh := ch, fromQueue := true }
        ({ s with
            fifoMouseBtn := rest
            accDx := s.accDx - cx, accDy := s.accDy - cy
            accV := s.accV - cv, accH := s.accH - ch
            lastSentButtons := b }, some rep)
  else (s, none)

/-- A mouse-side trace event: either a `move_mouse` call or one dispatcher
occasion on which `send_events(REPORT_ID_MOUSE)` runs. -/
inductive MouseEv where
  | move (buttons : Nat) (x y v h : Int)
  | tick
  deriving Repr, DecidableEq

/-- Run a mouse trace, collecting the emitted reports in order. -/
def runMouse (s : UsbState) : List MouseEv → UsbState × List MouseReport
  | [] => (s, [])
  | MouseEv.move b x y v h :: r => runMouse (moveMouse b x y v h s) r
  | MouseEv.tick :: r =>
      let p := sendMouse s
      let q := runMouse p.1 r
      (q.1, p.2.toList ++ q.2)

/-- Button masks that actually enter the transition queue along a trace:
a `move_mouse` call logs its mask when the mask differs from the
accumulator's and the 8-deep queue has room (`queue_try_add` succeeds). -/
def queuedTransitions (s : UsbState) : List MouseEv → List Nat
  | [] => []
  | MouseEv.move b x y v h :: r =>
      (if s.mounted ∧ b ≠ s.accButtons ∧ s.fifoMouseBtn.length < 8 then [b] else [])
        ++ queuedTransitions (moveMouse b x y v h s) r
  | MouseEv.tick :: r => queuedTransitions (sendMouse s).1 r

/-!
### Lemmas about the mouse pipeline (`clamp8`, `send_events`, `move_mouse`)
-/

theorem moveMouse_mounted (b : Nat) (x y v h : Int) (s : UsbState) :
    (moveMouse b x y v h s).mounted = s.mounted := by
  unfold moveMouse
  split <;> rfl

/-- A dispatcher occasion with a nonempty transition queue emits exactly
one report whose button field is the queue head, and consumes that head. -/
theorem sendMouse_pops_head (s : UsbState) (b : Nat) (rest : List Nat)
    (hq : s.fifoMouseBtn = b :: rest) :
    (sendMouse s).2 = some
      { buttons := b, dx := clamp8 s.accDx, dy := clamp8 s.accDy,
        dv := clamp8 s.accV, dh := clamp8 s.accH, fromQueue := true }
      ∧ (sendMouse s).1.fifoMouseBtn = rest := by
  have hpend : mouseHasPending s = true := by
    unfold mouseHasPending
    simp [hq]
  unfold sendMouse
  rw [hpend, hq]
  simp

/-- Conservation of queued button transitions along a mouse trace: the
button fields of the reports that consumed a queued transition, followed by
whatever is still queued, are exactly the initially queued masks followed
by the masks actually admitted to the queue by `move_mouse`. -/
theorem runMouse_queued_transitions (evs : List MouseEv) :
    ∀ s : UsbState,
      (((runMouse s evs).2.filter MouseReport.fromQueue).map MouseReport.buttons)
          ++ (runMouse s evs).1.fifoMouseBtn
        = s.fifoMouseBtn ++ queuedTransitions s evs := by
  induction evs with
  | nil => intro s; simp [runMouse, queuedTransitions]
  | cons ev rest ih =>
      intro s
      cases ev with
      | move b x y v h =>
          simp only [runMouse, queuedTransitions]
          rw [ih (moveMouse b x y v h s)]
          have : (moveMouse b x y v h s).fifoMouseBtn
              = s.fifoMouseBtn ++
                (if s.mounted ∧ b ≠ s.accButtons ∧ s.fifoMouseBtn.length < 8
                 then [b] else []) := by
            unfold moveMouse queueTryAdd
            by_cases hm : s.mounted <;> by_cases hb : b = s.accButtons <;>
              by_cases hl : s.fifoMouseBtn.length < 8 <;> simp [hm, hb, hl]
          rw [this]
          simp
      | tick =>
          simp only [runMouse, queuedTransitions]
          rcases hq : s.fifoMouseBtn with _ | ⟨b, q⟩
          · have hfifo : (sendMouse s).1.fifoMouseBtn = [] := by
              unfold sendMouse
              split
              · rw [hq]
              · exact hq
            have hrep : ∀ rep ∈ (sendMouse s).2.toList, rep.fromQueue = false := by
              intro rep hrep
              unfold sendMouse at hrep
              split at hrep
              · rw [hq] at hrep
                simp at hrep
                rw [hrep]
              · simp at hrep
            have := ih (sendMouse s).1
            rw [hfifo] at this
            rcases ho : (sendMouse s).2 with _ | rep
            · simp only [ho, Option.toList] at *
              simpa [hq] using this
            · have hfq : rep.fromQueue = false := by
                exact hrep rep (by simp [ho])
              simp only [ho, Option.toList] at *
              simp only [List.filter_append, List.filter_cons, hfq]
              simpa [hq] using this
          · obtain ⟨hrep, hfifo⟩ := sendMouse_pops_head s b q hq
            have := ih (sendMouse s).1
            rw [hfifo] at this
            simp only [hrep, Option.toList, hq]
            simp only [List.filter_append, List.filter_cons]
            simp only [List.singleton_append, List.filter_nil]
            simp [this]

/-- Claim C4 (amended): every button transition admitted to the 8-deep
transition queue is emitted in exactly one report carrying that mask as its
button field, in enqueue order, one transition per report (first
conjunct); a dispatcher occasion with a nonempty queue pops exactly the
head (second conjunct); and a press-then-release arriving between two
dispatcher occasions still produces two distinct reports (third conjunct).
Transitions arriving while the queue is already full are dropped by
`queue_try_add` and get no report of their own. -/
theorem c4_theorem :
    (∀ (s : UsbState) (evs : List MouseEv),
      (((runMouse s evs).2.filter MouseReport.fromQueue).map MouseReport.buttons)
          ++ (runMouse s evs).1.fifoMouseBtn
        = s.fifoMouseBtn ++ queuedTransitions s evs)
    ∧ (∀ (s : UsbState) (b : Nat) (rest : List Nat),
        s.fifoMouseBtn = b :: rest →
          (sendMouse s).2 = some
            { buttons := b, dx := clamp8 s.accDx, dy := clamp8 s.accDy,
              dv := clamp8 s.accV, dh := clamp8 s.accH, fromQueue := true }
          ∧ (sendMouse s).1.fifoMouseBtn = rest)
    ∧ ((runMouse mountedInit
          [MouseEv.move 1 0 0 0 0, MouseEv.move 0 0 0 0 0,
            MouseEv.tick, MouseEv.tick]).2.map MouseReport.buttons = [1, 0]) := by
  refine ⟨fun s evs => runMouse_queued_transitions evs s,
    fun s b rest h => sendMouse_pops_head s b rest h, by decide⟩

/-- Witness for C4: instantiates the conservation equation and the
head-popping lemma at concrete states. -/
theorem c4_witness :
    ((((runMouse mountedInit [MouseEv.move 3 0 0 0 0, MouseEv.tick]).2.filter
          MouseReport.fromQueue).map MouseReport.buttons)
        ++ (runMouse mountedInit [MouseEv.move 3 0 0 0 0, MouseEv.tick]).1.fifoMouseBtn
      = mountedInit.fifoMouseBtn
          ++ queuedTransitions mountedInit [MouseEv.move 3 0 0 0 0, MouseEv.tick])
    ∧ (sendMouse { mountedInit with fifoMouseBtn := [5] }).1.fifoMouseBtn = [] := by
  have h2 := c4_theorem.2.1 { mountedInit with fifoMouseBtn := [5] } 5 [] rfl
  exact ⟨c4_theorem.1 mountedInit [MouseEv.move 3 0 0 0 0, MouseEv.tick], h2.2⟩

/-- Counterexample to C4 as stated: ten rapid button transitions
(masks 1 through 10) arrive between dispatcher occasions.  The 8-deep
transition queue admits masks 1..8; the transitions to 9 and to 10 are
dropped by `queue_try_add`.  Draining with twelve dispatcher occasions
emits reports with button fields 1..8 and then 10 (from the accumulator);
no report ever carries mask 9, and the final state has nothing pending, so
no later report can carry it either.  This refutes "for every button
transition m1 → m2, at least one report is emitted carrying exactly m2". -/
theorem c4_counterexample :
    ((runMouse mountedInit
        ([MouseEv.move 1 0 0 0 0, MouseEv.move 2 0 0 0 0, MouseEv.move 3 0 0 0 0,
          MouseEv.move 4 0 0 0 0, MouseEv.move 5 0 0 0 0, MouseEv.move 6 0 0 0 0,
          MouseEv.move 7 0 0 0 0, MouseEv.move 8 0 0 0 0, MouseEv.move 9 0 0 0 0,
          MouseEv.move 10 0 0 0 0] ++ List.replicate 12 MouseEv.tick)).2.map
        MouseReport.buttons = [1, 2, 3, 4, 5, 6, 7, 8, 10])
    ∧ (9 : Nat) ∉ ((runMouse mountedInit
        ([MouseEv.move 1 0 0 0 0, MouseEv.move 2 0 0 0 0, MouseEv.move 3 0 0 0 0,
          MouseEv.move 4 0 0 0 0, MouseEv.move 5 0 0 0 0, MouseEv.move 6 0 0 0 0,
          MouseEv.move 7 0 0 0 0, MouseEv.move 8 0 0 0 0, MouseEv.move 9 0 0 0 0,
          MouseEv.move 10 0 0 0 0] ++ List.replicate 12 MouseEv.tick)).2.map
        MouseReport.buttons)
    ∧ mouseHasPending (runMouse mountedInit
        ([MouseEv.move 1 0 0 0 0, MouseEv.move 2 0 0 0 0, MouseEv.move 3 0 0 0 0,
          MouseEv.move 4 0 0 0 0, MouseEv.move 5 0 0 0 0, MouseEv.move 6 0 0 0 0,
          MouseEv.move 7 0 0 0 0, MouseEv.move 8 0 0 0 0, MouseEv.move 9 0 0 0 0,
          MouseEv.move 10 0 0 0 0] ++ List.replicate 12 MouseEv.tick)).1 = false := by
  refine ⟨by decide, by decide, by decide⟩

/-!
### Keyboard traces (claim C2)
-/

/-- A keyboard trace event: a `press_key` or a `depress_key` call. -/
inductive KeyEv where
  | press (k : Nat)
  | release (k : Nat)
  deriving Repr, DecidableEq

/-- Run a keyboard trace. -/
def runKeys (s : UsbState) : List KeyEv → UsbState
  | [] => s
  | KeyEv.press k :: r => runKeys (pressKey k s) r
  | KeyEv.release k :: r => runKeys (depressKey k s) r

/-- Number of `press_key k` calls in a trace. -/
def pressCount (k : Nat) : List KeyEv → Nat
  | [] => 0
  | KeyEv.press j :: r => (if j = k then 1 else 0) + pressCount k r
  | KeyEv.release _ :: r => pressCount k r

/-- Number of `depress_key k` calls in a trace. -/
def releaseCount (k : Nat) : List KeyEv → Nat
  | [] => 0
  | KeyEv.press _ :: r => releaseCount k r
  | KeyEv.release j :: r => (if j = k then 1 else 0) + releaseCount k r

/-- The sub-trace of operations on key `k`, as press flags. -/
def opsOn (k : Nat) : List KeyEv → List Bool
  | [] => []
  | KeyEv.press j :: r => (if j = k then [true] else []) ++ opsOn k r
  | KeyEv.release j :: r => (if j = k then [false] else []) ++ opsOn k r

/-- Strict press/release alternation: the flag list alternates, starting
with `expected`. -/
def altFrom (expected : Bool) : List Bool → Bool
  | [] => true
  | b :: r => (b == expected) && altFrom (!expected) r

/-- All event keys lie in the byte range and are nonzero (so no keycode is
truncated when stored in the `uint8_t` array and none collides with the
free-slot marker). -/
def keysBounded : List KeyEv → Bool
  | [] => true
  | KeyEv.press k :: r => (decide (0 < k) && decide (k < 256)) && keysBounded r
  | KeyEv.release k :: r => (decide (0 < k) && decide (k < 256)) && keysBounded r

/-- No press in the trace is dropped: whenever a press arrives, its key is
already held or a free slot exists. -/
def noDrop (s : UsbState) : List KeyEv → Bool
  | [] => true
  | KeyEv.press k :: r =>
      (decide (k ∈ s.keycodes) || decide (0 ∈ s.keycodes)) && noDrop (pressKey k s) r
  | KeyEv.release k :: r => noDrop (depressKey k s) r

theorem setFirstZero_length (ks : List Nat) (key : Nat) :
    (setFirstZero ks key).1.length = ks.length := by
  induction ks with
  | nil => rfl
  | cons a t ih =>
      simp only [setFirstZero]
      split <;> simp [ih]

theorem setFirstZero_changed (ks : List Nat) (key : Nat) :
    (setFirstZero ks key).2 = true ↔ 0 ∈ ks := by
  induction ks with
  | nil => simp [setFirstZero]
  | cons a t ih =>
      simp only [setFirstZero]
      split
      · simp [*]
      · simp only [List.mem_cons]
        rw [ih]
        constructor
        · exact fun h => Or.inr h
        · rintro (h | h)
          · exact absurd h.symm (by assumption)
          · exact h

theorem setFirstZero_unchanged (ks : List Nat) (key : Nat)
    (h : (setFirstZero ks key).2 = false) : (setFirstZero ks key).1 = ks := by
  induction ks with
  | nil => rfl
  | cons a t ih =>
      simp only [setFirstZero] at *
      split at h
      · simp at h
      · simp_all

theorem setFirstZero_mem_other (ks : List Nat) (key m : Nat)
    (hm : m ≠ 0) (hmk : m ≠ key % 256) :
    m ∈ (setFirstZero ks key).1 ↔ m ∈ ks := by
  induction ks with
  | nil => simp [setFirstZero]
  | cons a t ih =>
      simp only [setFirstZero]
      split
      · subst_vars
        simp [hmk, Ne.symm hm, hm]
      · simp [ih]

theorem setFirstZero_mem_self (ks : List Nat) (key : Nat) (h0 : 0 ∈ ks) :
    key % 256 ∈ (setFirstZero ks key).1 := by
  induction ks with
  | nil => simp at h0
  | cons a t ih =>
      simp only [setFirstZero]
      split
      · simp
      · rcases List.mem_cons.mp h0 with h | h
        · exact absurd h.symm (by assumption)
        · simp [ih h]

theorem setFirstZero_count_le (ks : List Nat) (key : Nat) :
    (setFirstZero ks key).1.count (key % 256) ≤ ks.count (key % 256) + 1 := by
  induction ks with
  | nil => simp [setFirstZero]
  | cons a t ih =>
      simp only [setFirstZero]
      split <;> simp only [List.count_cons] <;> split_ifs <;> simp_all <;> try omega

theorem setFirstZero_count_other (ks : List Nat) (key m : Nat)
    (hm : m ≠ 0) (hmk : m ≠ key % 256) :
    (setFirstZero ks key).1.count m = ks.count m := by
  induction ks with
  | nil => rfl
  | cons a t ih =>
      simp only [setFirstZero]
      split
      · simp only [List.count_cons]
        split_ifs <;> simp_all <;> try omega
      · simp only [List.count_cons, ih]

theorem zeroFirstEq_length (ks : List Nat) (key : Nat) :
    (zeroFirstEq ks key).1.length = ks.length := by
  induction ks with
  | nil => rfl
  | cons a t ih =>
      simp only [zeroFirstEq]
      split <;> simp [ih]

theorem zeroFirstEq_changed (ks : List Nat) (key : Nat) :
    (zeroFirstEq ks key).2 = true ↔ key ∈ ks := by
  induction ks with
  | nil => simp [zeroFirstEq]
  | cons a t ih =>
      simp only [zeroFirstEq]
      split
      · simp [*]
      · simp only [List.mem_cons]
        rw [ih]
        constructor
        · exact fun h => Or.inr h
        · rintro (h | h)
          · exact absurd h.symm (by assumption)
          · exact h

theorem zeroFirstEq_unchanged (ks : List Nat) (key : Nat)
    (h : (zeroFirstEq ks key).2 = false) : (zeroFirstEq ks key).1 = ks := by
  induction ks with
  | nil => rfl
  | cons a t ih =>
      simp only [zeroFirstEq] at *
      split at h
      · simp at h
      · simp_all

theorem zeroFirstEq_mem_other (ks : List Nat) (key m : Nat)
    (hm : m ≠ 0) (hmk : m ≠ key) :
    m ∈ (zeroFirstEq ks key).1 ↔ m ∈ ks := by
  induction ks with
  | nil => simp [zeroFirstEq]
  | cons a t ih =>
      simp only [zeroFirstEq]
      split
      · subst_vars
        simp only [List.mem_cons, ih]
        constructor
        · rintro (h | h)
          · exact absurd h hm
          · exact Or.inr h
        · rintro (h | h)
          · exact absurd h hmk
          · exact Or.inr h
      · simp [ih]

theorem zeroFirstEq_count_self (ks : List Nat) (key : Nat) (hk : key ≠ 0) :
    (zeroFirstEq ks key).1.count key = ks.count key - 1 := by
  induction ks with
  | nil => simp [zeroFirstEq]
  | cons a t ih =>
      simp only [zeroFirstEq]
      split
      · subst_vars
        simp only [List.count_cons]
        split_ifs <;> simp_all <;> try omega
      · simp only [List.count_cons, ih]
        split_ifs <;> simp_all <;> try omega

theorem zeroFirstEq_count_other (ks : List Nat) (key m : Nat)
    (hm : m ≠ 0) (hmk : m ≠ key) :
    (zeroFirstEq ks key).1.count m = ks.count m := by
  induction ks with
  | nil => rfl
  | cons a t ih =>
      simp only [zeroFirstEq]
      split
      · subst_vars
        simp only [List.count_cons]
        split_ifs <;> simp_all <;> try omega
      · simp only [List.count_cons, ih]

theorem pressKey_unmounted (k : Nat) (s : UsbState) (hm : s.mounted = false) :
    pressKey k s = s := by
  simp [pressKey, hm]

theorem pressKey_noop_mem (k : Nat) (s : UsbState) (hmem : k ∈ s.keycodes) :
    pressKey k s = s := by
  simp [pressKey, hmem]

theorem pressKey_noop_nofree (k : Nat) (s : UsbState)
    (hch : (setFirstZero s.keycodes k).2 = false) : pressKey k s = s := by
  simp [pressKey, hch]

theorem pressKey_eq (k : Nat) (s : UsbState) (hm : s.mounted = true)
    (hmem : k ∉ s.keycodes) (hch : (setFirstZero s.keycodes k).2 = true) :
    pressKey k s =
      { s with
        keycodes := (setFirstZero s.keycodes k).1
        fifoKeyboard := queueTryAdd s.fifoKeyboard 32 (setFirstZero s.keycodes k).1 } := by
  simp [pressKey, hm, hmem, hch]

theorem depressKey_unmounted (k : Nat) (s : UsbState) (hm : s.mounted = false) :
    depressKey k s = s := by
  simp [depressKey, hm]

theorem depressKey_noop (k : Nat) (s : UsbState)
    (hch : (zeroFirstEq s.keycodes k).2 = false) : depressKey k s = s := by
  simp [depressKey, hch]

theorem depressKey_eq (k : Nat) (s : UsbState) (hm : s.mounted = true)
    (hch : (zeroFirstEq s.keycodes k).2 = true) :
    depressKey k s =
      { s with
        keycodes := (zeroFirstEq s.keycodes k).1
        fifoKeyboard := queueTryAdd s.fifoKeyboard 32 (zeroFirstEq s.keycodes k).1 } := by
  simp [depressKey, hm, hch]

theorem pressKey_mounted (k : Nat) (s : UsbState) :
    (pressKey k s).mounted = s.mounted := by
  by_cases hm : s.mounted
  · by_cases hmem : k ∈ s.keycodes
    · rw [pressKey_noop_mem k s hmem]
    · by_cases hch : (setFirstZero s.keycodes k).2
      · rw [pressKey_eq k s hm hmem hch]
      · rw [pressKey_noop_nofree k s (by simpa using hch)]
  · rw [pressKey_unmounted k s (by simpa using hm)]

theorem depressKey_mounted (k : Nat) (s : UsbState) :
    (depressKey k s).mounted = s.mounted := by
  by_cases hm : s.mounted
  · by_cases hch : (zeroFirstEq s.keycodes k).2
    · rw [depressKey_eq k s hm hch]
    · rw [depressKey_noop k s (by simpa using hch)]
  · rw [depressKey_unmounted k s (by simpa using hm)]

theorem pressKey_keycodes_length (k : Nat) (s : UsbState) :
    (pressKey k s).keycodes.length = s.keycodes.length := by
  by_cases hm : s.mounted
  · by_cases hmem : k ∈ s.keycodes
    · rw [pressKey_noop_mem k s hmem]
    · by_cases hch : (setFirstZero s.keycodes k).2
      · rw [pressKey_eq k s hm hmem hch]
        exact setFirstZero_length s.keycodes k
      · rw [pressKey_noop_nofree k s (by simpa using hch)]
  · rw [pressKey_unmounted k s (by simpa using hm)]

theorem depressKey_keycodes_length (k : Nat) (s : UsbState) :
    (depressKey k s).keycodes.length = s.keycodes.length := by
  by_cases hm : s.mounted
  · by_cases hch : (zeroFirstEq s.keycodes k).2
    · rw [depressKey_eq k s hm hch]
      exact zeroFirstEq_length s.keycodes k
    · rw [depressKey_noop k s (by simpa using hch)]
  · rw [depressKey_unmounted k s (by simpa using hm)]

/-- Invariant on the HID key state: mounted, six slots, and no nonzero
keycode occupies two slots. -/
def KeyInv (s : UsbState) : Prop :=
  s.mounted = true ∧ s.keycodes.length = 6 ∧ ∀ m, m ≠ 0 → s.keycodes.count m ≤ 1

theorem keyInv_press (s : UsbState) (k : Nat) (hs : KeyInv s)
    (h0 : 0 < k) (h256 : k < 256) : KeyInv (pressKey k s) := by
  obtain ⟨hm, hl, hc⟩ := hs
  have hk256 : k % 256 = k := Nat.mod_eq_of_lt h256
  by_cases hmem : k ∈ s.keycodes
  · rw [pressKey_noop_mem k s hmem]; exact ⟨hm, hl, hc⟩
  · by_cases hch : (setFirstZero s.keycodes k).2
    · rw [pressKey_eq k s hm hmem hch]
      refine ⟨hm, by simpa [setFirstZero_length] using hl, ?_⟩
      intro m hm0
      by_cases hmk : m = k
      · subst hmk
        have hz : s.keycodes.count m = 0 := List.count_eq_zero.mpr hmem
        have hle := setFirstZero_count_le s.keycodes m
        rw [hk256] at hle
        show List.count m (setFirstZero s.keycodes m).1 ≤ 1
        omega
      · simp only
        rw [setFirstZero_count_other s.keycodes k m hm0 (by rw [hk256]; exact hmk)]
        exact hc m hm0
    · rw [pressKey_noop_nofree k s (by simpa using hch)]; exact ⟨hm, hl, hc⟩

theorem keyInv_depress (s : UsbState) (k : Nat) (hs : KeyInv s) :
    KeyInv (depressKey k s) := by
  obtain ⟨hm, hl, hc⟩ := hs
  by_cases hch : (zeroFirstEq s.keycodes k).2
  · rw [depressKey_eq k s hm hch]
    refine ⟨hm, by simpa [zeroFirstEq_length] using hl, ?_⟩
    intro m hm0
    by_cases hmk : m = k
    · subst hmk
      have h1 := zeroFirstEq_count_self s.keycodes m hm0
      have h2 := hc m hm0
      simp only
      omega
    · simp only
      rw [zeroFirstEq_count_other s.keycodes k m hm0 hmk]
      exact hc m hm0
  · rw [depressKey_noop k s (by simpa using hch)]; exact ⟨hm, hl, hc⟩

theorem pressKey_mem_of_ne (s : UsbState) (j k : Nat)
    (hk0 : k ≠ 0) (hkj : k ≠ j) (hj : j < 256) :
    (k ∈ (pressKey j s).keycodes ↔ k ∈ s.keycodes) := by
  have hj256 : j % 256 = j := Nat.mod_eq_of_lt hj
  by_cases hm : s.mounted
  · by_cases hmem : j ∈ s.keycodes
    · rw [pressKey_noop_mem j s hmem]
    · by_cases hch : (setFirstZero s.keycodes j).2
      · rw [pressKey_eq j s hm hmem hch]
        exact setFirstZero_mem_other s.keycodes j k hk0 (by rw [hj256]; exact hkj)
      · rw [pressKey_noop_nofree j s (by simpa using hch)]
  · rw [pressKey_unmounted j s (by simpa using hm)]

theorem depressKey_mem_of_ne (s : UsbState) (j k : Nat)
    (hk0 : k ≠ 0) (hkj : k ≠ j) :
    (k ∈ (depressKey j s).keycodes ↔ k ∈ s.keycodes) := by
  by_cases hm : s.mounted
  · by_cases hch : (zeroFirstEq s.keycodes j).2
    · rw [depressKey_eq j s hm hch]
      exact zeroFirstEq_mem_other s.keycodes j k hk0 hkj
    · rw [depressKey_noop j s (by simpa using hch)]
  · rw [depressKey_unmounted j s (by simpa using hm)]

theorem pressKey_mem_self (s : UsbState) (k : Nat)
    (hm : s.mounted = true) (hfree : k ∈ s.keycodes ∨ 0 ∈ s.keycodes) (hk : k < 256) :
    k ∈ (pressKey k s).keycodes := by
  have hk256 : k % 256 = k := Nat.mod_eq_of_lt hk
  by_cases hmem : k ∈ s.keycodes
  · rw [pressKey_noop_mem k s hmem]; exact hmem
  · have h0 : 0 ∈ s.keycodes := hfree.resolve_left hmem
    have hch : (setFirstZero s.keycodes k).2 = true :=
      (setFirstZero_changed s.keycodes k).mpr h0
    rw [pressKey_eq k s hm hmem hch]
    have := setFirstZero_mem_self s.keycodes k h0
    rwa [hk256] at this

theorem depressKey_not_mem_self (s : UsbState) (k : Nat)
    (hm : s.mounted = true) (hk0 : k ≠ 0) (hcount : s.keycodes.count k ≤ 1) :
    k ∉ (depressKey k s).keycodes := by
  by_cases hch : (zeroFirstEq s.keycodes k).2
  · rw [depressKey_eq k s hm hch]
    have h2' : k ∈ s.keycodes := (zeroFirstEq_changed s.keycodes k).mp hch
    have hge : 1 ≤ s.keycodes.count k := List.one_le_count_iff.mpr h2'
    have h1 := zeroFirstEq_count_self s.keycodes k hk0
    have hz : (zeroFirstEq s.keycodes k).1.count k = 0 := by omega
    simp only
    exact List.count_eq_zero.mp hz
  · rw [depressKey_noop k s (by simpa using hch)]
    intro hmem
    rw [zeroFirstEq_changed] at hch
    exact hch hmem

theorem altFrom_counts (l : List Bool) :
    ∀ e : Bool, altFrom e l = true →
      l.count e = (l.length + 1) / 2 ∧ l.count (!e) = l.length / 2 := by
  induction l with
  | nil => intro e _; simp
  | cons b r ih =>
      intro e he
      simp only [altFrom, Bool.and_eq_true, beq_iff_eq] at he
      obtain ⟨hb, hr⟩ := he
      subst hb
      obtain ⟨h1, h2⟩ := ih (!b) hr
      rw [Bool.not_not] at h2
      constructor
      · rw [List.count_cons]
        simp [h2]
        omega
      · rw [List.count_cons]
        have : (b = !b) = False := by simp
        simp [this, h1]

theorem pressCount_eq_opsOn (k : Nat) (evs : List KeyEv) :
    pressCount k evs = (opsOn k evs).count true := by
  induction evs with
  | nil => rfl
  | cons ev r ih =>
      cases ev with
      | press j =>
          by_cases h : j = k <;>
            simp [pressCount, opsOn, h, ih, List.count_append, List.count_cons] <;> omega
      | release j =>
          by_cases h : j = k <;>
            simp [pressCount, opsOn, h, ih, List.count_append, List.count_cons]

theorem releaseCount_eq_opsOn (k : Nat) (evs : List KeyEv) :
    releaseCount k evs = (opsOn k evs).count false := by
  induction evs with
  | nil => rfl
  | cons ev r ih =>
      cases ev with
      | press j =>
          by_cases h : j = k <;>
            simp [releaseCount, opsOn, h, ih, List.count_append, List.count_cons]
      | release j =>
          by_cases h : j = k <;>
            simp [releaseCount, opsOn, h, ih, List.count_append, List.count_cons] <;> omega

/-- Membership characterisation for a keyboard trace run from an arbitrary
good state: under per-key press/release alternation and the no-drop side
condition, key `k` is held at the end iff its initial membership is flipped
by an odd number of operations on it. -/
theorem runKeys_mem_char (evs : List KeyEv) :
    ∀ s : UsbState, KeyInv s → keysBounded evs = true → noDrop s evs = true →
      ∀ k, 0 < k → k < 256 →
        altFrom (!decide (k ∈ s.keycodes)) (opsOn k evs) = true →
        (k ∈ (runKeys s evs).keycodes ↔
          Xor' (k ∈ s.keycodes) (Odd (opsOn k evs).length)) := by
  induction evs with
  | nil =>
      intro s _ _ _ k _ _ _
      simp [runKeys, opsOn, Xor', Nat.odd_iff]
  | cons ev r ih =>
      intro s hInv hkb hnd k hk0 hk256 halt
      cases ev with
      | press j =>
          simp only [keysBounded, Bool.and_eq_true, decide_eq_true_eq] at hkb
          obtain ⟨⟨hj0, hj256⟩, hkbr⟩ := hkb
          simp only [noDrop, Bool.and_eq_true, Bool.or_eq_true, decide_eq_true_eq] at hnd
          obtain ⟨hfree, hndr⟩ := hnd
          have hInv' := keyInv_press s j hInv hj0 hj256
          by_cases hjk : j = k
          · subst hjk
            have hops : opsOn j (KeyEv.press j :: r) = true :: opsOn j r := by
              simp [opsOn]
            rw [hops] at halt ⊢
            simp only [altFrom, Bool.and_eq_true, beq_iff_eq, Bool.not_not] at halt
            obtain ⟨hexp, haltr⟩ := halt
            have hnotmem : j ∉ s.keycodes := by
              by_contra hmem
              simp [hmem] at hexp
            have hmem' : j ∈ (pressKey j s).keycodes :=
              pressKey_mem_self s j hInv.1 hfree hj256
            have haltr' : altFrom (!decide (j ∈ (pressKey j s).keycodes))
                (opsOn j r) = true := by
              simpa [hmem', hnotmem] using haltr
            have ihr := ih (pressKey j s) hInv' hkbr hndr j hk0 hk256 haltr'
            rw [runKeys, ihr]
            simp [Xor', hmem', hnotmem, Nat.odd_add_one]
          · have hops : opsOn k (KeyEv.press j :: r) = opsOn k r := by
              simp [opsOn, hjk]
            rw [hops] at halt ⊢
            have hmemiff := pressKey_mem_of_ne s j k (by omega)
              (fun h => hjk h.symm) hj256
            have halt' : altFrom (!decide (k ∈ (pressKey j s).keycodes))
                (opsOn k r) = true := by
              have : decide (k ∈ (pressKey j s).keycodes)
                  = decide (k ∈ s.keycodes) := by
                simp only [decide_eq_decide]
                exact hmemiff
              rw [this]
              exact halt
            have ihr := ih (pressKey j s) hInv' hkbr hndr k hk0 hk256 halt'
            rw [runKeys, ihr, hmemiff]
      | release j =>
          simp only [keysBounded, Bool.and_eq_true, decide_eq_true_eq] at hkb
          obtain ⟨⟨hj0, hj256⟩, hkbr⟩ := hkb
          simp only [noDrop] at hnd
          have hInv' := keyInv_depress s j hInv
          by_cases hjk : j = k
          · subst hjk
            have hops : opsOn j (KeyEv.release j :: r) = false :: opsOn j r := by
              simp [opsOn]
            rw [hops] at halt ⊢
            simp only [altFrom, Bool.and_eq_true, beq_iff_eq, Bool.not_not] at halt
            obtain ⟨hexp, haltr⟩ := halt
            have hmem : j ∈ s.keycodes := by
              by_contra hmem
              simp [hmem] at hexp
            have hnot' : j ∉ (depressKey j s).keycodes :=
              depressKey_not_mem_self s j hInv.1 (by omega)
                (hInv.2.2 j (by omega))
            have haltr' : altFrom (!decide (j ∈ (depressKey j s).keycodes))
                (opsOn j r) = true := by
              simpa [hmem, hnot'] using haltr
            have ihr := ih (depressKey j s) hInv' hkbr hnd j hk0 hk256 haltr'
            rw [runKeys, ihr]
            simp [Xor', hmem, hnot', Nat.odd_add_one]
          · have hops : opsOn k (KeyEv.release j :: r) = opsOn k r := by
              simp [opsOn, hjk]
            rw [hops] at halt ⊢
            have hmemiff := depressKey_mem_of_ne s j k (by omega)
              (fun h => hjk h.symm)
            have halt' : altFrom (!decide (k ∈ (depressKey j s).keycodes))
                (opsOn k r) = true := by
              have : decide (k ∈ (depressKey j s).keycodes)
                  = decide (k ∈ s.keycodes) := by
                simp only [decide_eq_decide]
                exact hmemiff
              rw [this]
              exact halt
            have ihr := ih (depressKey j s) hInv' hkbr hnd k hk0 hk256 halt'
            rw [runKeys, ihr, hmemiff]

theorem runKeys_keycodes_length (evs : List KeyEv) :
    ∀ s : UsbState, (runKeys s evs).keycodes.length = s.keycodes.length := by
  induction evs with
  | nil => intro s; rfl
  | cons ev r ih =>
      intro s
      cases ev with
      | press j => rw [runKeys, ih, pressKey_keycodes_length]
      | release j => rw [runKeys, ih, depressKey_keycodes_length]

theorem keyInv_mountedInit : KeyInv mountedInit := by
  refine ⟨rfl, rfl, ?_⟩
  intro m hm
  have : m ∉ mountedInit.keycodes := by
    simp [mountedInit]
    omega
  simp [List.count_eq_zero.mpr this]

/-- Claim C2 (amended): (1) the held-key set never exceeds six entries;
(2) a repeated press of an already-held key changes nothing; (3) a press
with no free slot is silently dropped; (4)/(5) every `press_key` /
`depress_key` call that changes the array enqueues the full six-slot
snapshot, provided the 32-deep keyboard queue is not full (when it is
full, `queue_try_add` drops the snapshot although the array still
changes); (6) for traces of in-range keys in which each key's operations
alternate press/release starting with a press and no press is dropped for
want of a slot, a key is held at the end exactly when its presses exceed
its releases.  (The unrestricted "presses exceed releases" reading is
refuted by the counterexample: a dropped seventh press leaves the key
unheld although presses exceed releases.) -/
theorem c2_theorem :
    (∀ evs : List KeyEv,
      ((runKeys mountedInit evs).keycodes.filter (· ≠ 0)).length ≤ 6)
    ∧ (∀ (s : UsbState) (k : Nat), k ∈ s.keycodes → pressKey k s = s)
    ∧ (∀ (s : UsbState) (k : Nat), k ∉ s.keycodes → 0 ∉ s.keycodes →
        pressKey k s = s)
    ∧ (∀ (s : UsbState) (k : Nat), (pressKey k s).keycodes ≠ s.keycodes →
        s.fifoKeyboard.length < 32 →
        (pressKey k s).fifoKeyboard = s.fifoKeyboard ++ [(pressKey k s).keycodes])
    ∧ (∀ (s : UsbState) (k : Nat), (depressKey k s).keycodes ≠ s.keycodes →
        s.fifoKeyboard.length < 32 →
        (depressKey k s).fifoKeyboard = s.fifoKeyboard ++ [(depressKey k s).keycodes])
    ∧ (∀ (evs : List KeyEv) (k : Nat),
        keysBounded evs = true → noDrop mountedInit evs = true →
        0 < k → k < 256 → altFrom true (opsOn k evs) = true →
        (k ∈ (runKeys mountedInit evs).keycodes ↔
          pressCount k evs > releaseCount k evs)) := by
  refine ⟨?_, ?_, ?_, ?_, ?_, ?_⟩
  · intro evs
    calc ((runKeys mountedInit evs).keycodes.filter (· ≠ 0)).length
        ≤ (runKeys mountedInit evs).keycodes.length := List.length_filter_le _ _
      _ = 6 := runKeys_keycodes_length evs mountedInit
  · intro s k hmem
    exact pressKey_noop_mem k s hmem
  · intro s k hmem h0
    by_cases hm : s.mounted
    · have hch : (setFirstZero s.keycodes k).2 = false := by
        rw [← Bool.not_eq_true, setFirstZero_changed]
        exact h0
      exact pressKey_noop_nofree k s hch
    · exact pressKey_unmounted k s (by simpa using hm)
  · intro s k hch hlen
    by_cases hm : s.mounted
    · by_cases hmem : k ∈ s.keycodes
      · rw [pressKey_noop_mem k s hmem] at hch
        exact absurd rfl hch
      · by_cases hc : (setFirstZero s.keycodes k).2
        · rw [pressKey_eq k s hm hmem hc]
          simp [queueTryAdd, hlen]
        · rw [pressKey_noop_nofree k s (by simpa using hc)] at hch
          exact absurd rfl hch
    · rw [pressKey_unmounted k s (by simpa using hm)] at hch
      exact absurd rfl hch
  · intro s k hch hlen
    by_cases hm : s.mounted
    · by_cases hc : (zeroFirstEq s.keycodes k).2
      · rw [depressKey_eq k s hm hc]
        simp [queueTryAdd, hlen]
      · rw [depressKey_noop k s (by simpa using hc)] at hch
        exact absurd rfl hch
    · rw [depressKey_unmounted k s (by simpa using hm)] at hch
      exact absurd rfl hch
  · intro evs k hkb hnd hk0 hk256 halt
    have hkinit : k ∉ mountedInit.keycodes := by
      simp [mountedInit]
      omega
    have halt' : altFrom (!decide (k ∈ mountedInit.keycodes)) (opsOn k evs) = true := by
      simpa [hkinit] using halt
    have hchar := runKeys_mem_char evs mountedInit keyInv_mountedInit hkb hnd
      k hk0 hk256 halt'
    have hcounts := altFrom_counts (opsOn k evs) true halt
    rw [pressCount_eq_opsOn, releaseCount_eq_opsOn]
    rw [hchar]
    have hodd : Odd (opsOn k evs).length ↔ (opsOn k evs).length % 2 = 1 := Nat.odd_iff
    constructor
    · intro hx
      have : Odd (opsOn k evs).length := by
        rcases hx with ⟨ha, _⟩ | ⟨hb, _⟩
        · exact absurd ha hkinit
        · exact hb
      rw [hodd] at this
      obtain ⟨c1, c2⟩ := hcounts
      simp only [Bool.not_true] at c2
      omega
    · intro hgt
      obtain ⟨c1, c2⟩ := hcounts
      simp only [Bool.not_true] at c2
      have : Odd (opsOn k evs).length := by
        rw [hodd]
        omega
      exact Or.inr ⟨this, hkinit⟩

/-- Witness for C2: a concrete alternating trace — press 4, press 5,
release 4 — at key 4, and a concrete repeated press. -/
theorem c2_witness :
    ((4 ∈ (runKeys mountedInit
        [KeyEv.press 4, KeyEv.press 5, KeyEv.release 4]).keycodes ↔
      pressCount 4 [KeyEv.press 4, KeyEv.press 5, KeyEv.release 4] >
        releaseCount 4 [KeyEv.press 4, KeyEv.press 5, KeyEv.release 4]))
    ∧ pressKey 4 { mountedInit with keycodes := [4, 0, 0, 0, 0, 0] }
        = { mountedInit with keycodes := [4, 0, 0, 0, 0, 0] } := by
  refine ⟨c2_theorem.2.2.2.2.2 [KeyEv.press 4, KeyEv.press 5, KeyEv.release 4] 4
      (by decide) (by decide) (by decide) (by decide) (by decide),
    c2_theorem.2.1 { mountedInit with keycodes := [4, 0, 0, 0, 0, 0] } 4 (by decide)⟩

/-- Counterexample to C2 as stated: after pressing keys 1..6 (filling all
six slots) and then pressing key 7, key 7 has one press and no releases,
yet it is not held — the claim's "contains exactly those keys for which
presses exceed releases" fails on dropped presses. -/
theorem c2_counterexample :
    pressCount 7 [KeyEv.press 1, KeyEv.press 2, KeyEv.press 3, KeyEv.press 4,
        KeyEv.press 5, KeyEv.press 6, KeyEv.press 7] >
      releaseCount 7 [KeyEv.press 1, KeyEv.press 2, KeyEv.press 3, KeyEv.press 4,
        KeyEv.press 5, KeyEv.press 6, KeyEv.press 7]
    ∧ 7 ∉ (runKeys mountedInit
        [KeyEv.press 1, KeyEv.press 2, KeyEv.press 3, KeyEv.press 4,
          KeyEv.press 5, KeyEv.press 6, KeyEv.press 7]).keycodes := by
  refine ⟨by decide, by decide⟩

/-!
### Release-all implementations (claim C1)

`websocket_release_all` (`src/websocket/websocket.c` and
`src/httpd/httpd_websocket.c`), `mqtt_release_all_keys`
(`src/mqtt/mqtt.c`) and `process_hid_release` (`src/httpd/httpd.c`) all
share the same loop: for each of the six slots, if the slot holds a
nonzero keycode, call `depress_key` on it; then reset the ingress-local
button shadow and call `move_mouse(0, 0, 0, 0, 0)`.  The pub/sub variant
additionally calls `release_consumer()`.  None of them calls
`release_system()`, and none touches the accumulated deltas.
-/

/-- One iteration of the release loop: `if (keycodes[i] != 0)
depress_key(keycodes[i]);` on the live array. -/
def relStep (i : Nat) (s : UsbState) : UsbState :=
  if s.keycodes.getD i 0 ≠ 0 then depressKey (s.keycodes.getD i 0) s else s

/-- The six-iteration release loop shared by all three ingresses. -/
def releaseHeldKeys (s : UsbState) : UsbState :=
  relStep 5 (relStep 4 (relStep 3 (relStep 2 (relStep 1 (relStep 0 s)))))

/-- `websocket_release_all` from `src/websocket/websocket.c`: depress each
held key, then `move_mouse(0,0,0,0,0)` (the `current_buttons` shadow is
zeroed on the side). -/
def websocketReleaseAll (s : UsbState) : UsbState :=
  moveMouse 0 0 0 0 0 (releaseHeldKeys s)

/-- `mqtt_release_all_keys` from `src/mqtt/mqtt.c`: like the WebSocket
variant, plus a trailing `release_consumer()`. -/
def mqttReleaseAllKeys (s : UsbState) : UsbState :=
  releaseConsumer (moveMouse 0 0 0 0 0 (releaseHeldKeys s))

/-- `process_hid_release` from `src/httpd/httpd.c` (and the identical
`handle_api_hid_release` body in `src/httpd/httpd_handlers.c`). -/
def processHidRelease (s : UsbState) : UsbState :=
  moveMouse 0 0 0 0 0 (releaseHeldKeys s)

/-- The fields of the HID state that the keyboard release loop can never
touch, bundled for preservation proofs. -/
def auxFields (s : UsbState) :
    Bool × Int × Int × Int × Int × Nat × Nat × List Nat × List Nat × List Nat :=
  (s.mounted, s.accDx, s.accDy, s.accV, s.accH, s.accButtons,
    s.lastSentButtons, s.fifoConsumer, s.fifoSystem, s.fifoMouseBtn)

theorem depressKey_keycodes_of_changed (k : Nat) (s : UsbState)
    (hm : s.mounted = true) (hch : (zeroFirstEq s.keycodes k).2 = true) :
    (depressKey k s).keycodes = (zeroFirstEq s.keycodes k).1 := by
  rw [depressKey_eq k s hm hch]

theorem depressKey_aux (k : Nat) (s : UsbState) :
    auxFields (depressKey k s) = auxFields s := by
  by_cases hm : s.mounted
  · by_cases hch : (zeroFirstEq s.keycodes k).2
    · rw [depressKey_eq k s hm hch]
      rfl
    · rw [depressKey_noop k s (by simpa using hch)]
  · rw [depressKey_unmounted k s (by simpa using hm)]

theorem relStep_aux (i : Nat) (s : UsbState) :
    auxFields (relStep i s) = auxFields s := by
  unfold relStep
  split
  · exact depressKey_aux _ s
  · rfl

theorem releaseHeldKeys_aux (s : UsbState) :
    auxFields (releaseHeldKeys s) = auxFields s := by
  unfold releaseHeldKeys
  rw [relStep_aux, relStep_aux, relStep_aux, relStep_aux, relStep_aux, relStep_aux]

theorem relStep_keycodes_length (i : Nat) (s : UsbState) :
    (relStep i s).keycodes.length = s.keycodes.length := by
  unfold relStep
  split
  · exact depressKey_keycodes_length _ s
  · rfl

theorem releaseHeldKeys_keycodes_length (s : UsbState) :
    (releaseHeldKeys s).keycodes.length = s.keycodes.length := by
  unfold releaseHeldKeys
  rw [relStep_keycodes_length, relStep_keycodes_length, relStep_keycodes_length,
    relStep_keycodes_length, relStep_keycodes_length, relStep_keycodes_length]

theorem getD_ne_zero_mem (ks : List Nat) (i : Nat) (h : ks.getD i 0 ≠ 0) :
    ks.getD i 0 ∈ ks := by
  by_cases hi : i < ks.length
  · rw [List.getD_eq_getElem ks 0 hi]
    exact List.getElem_mem hi
  · rw [List.getD_eq_default ks 0 (by omega)] at h
    exact absurd rfl h

theorem zeroFirstEq_getD (ks : List Nat) :
    ∀ (i k : Nat), k ≠ 0 → (∀ j, j < i → ks.getD j 0 = 0) → ks.getD i 0 = k →
      ∀ j, (zeroFirstEq ks k).1.getD j 0 = if j = i then 0 else ks.getD j 0 := by
  induction ks with
  | nil =>
      intro i k hk _ hi _
      simp at hi
      exact absurd hi.symm hk
  | cons a t ih =>
      intro i k hk hpre hi j
      cases i with
      | zero =>
          simp only [List.getD_cons_zero] at hi
          subst hi
          simp only [zeroFirstEq, if_pos rfl]
          cases j with
          | zero => simp
          | succ m => simp
      | succ n =>
          have ha : a = 0 := by
            have := hpre 0 (Nat.succ_pos n)
            simpa using this
          have hak : ¬(a = k) := by
            rw [ha]
            exact fun h => hk h.symm
          simp only [zeroFirstEq, if_neg hak]
          cases j with
          | zero => simp
          | succ m =>
              simp only [List.getD_cons_succ]
              have := ih n k hk (fun j hj => by
                  have := hpre (j + 1) (by omega)
                  simpa using this)
                (by simpa using hi) m
              rw [this]
              by_cases hmn : m = n
              · simp [hmn]
              · simp [hmn, fun h => hmn (Nat.succ_injective h)]

theorem relStep_getD (s : UsbState) (i : Nat) (hm : s.mounted = true)
    (hpre : ∀ j, j < i → s.keycodes.getD j 0 = 0) :
    (∀ j, j ≤ i → (relStep i s).keycodes.getD j 0 = 0)
    ∧ (∀ j, i < j → (relStep i s).keycodes.getD j 0 = s.keycodes.getD j 0) := by
  unfold relStep
  by_cases hk : s.keycodes.getD i 0 ≠ 0
  · rw [if_pos hk]
    have hmem : s.keycodes.getD i 0 ∈ s.keycodes := getD_ne_zero_mem s.keycodes i hk
    have hch : (zeroFirstEq s.keycodes (s.keycodes.getD i 0)).2 = true :=
      (zeroFirstEq_changed _ _).mpr hmem
    rw [depressKey_keycodes_of_changed _ s hm hch]
    have hz := zeroFirstEq_getD s.keycodes i (s.keycodes.getD i 0) hk hpre rfl
    constructor
    · intro j hj
      rw [hz j]
      by_cases hji : j = i
      · simp [hji]
      · rw [if_neg hji]
        exact hpre j (by omega)
    · intro j hj
      rw [hz j, if_neg (by omega)]
  · rw [if_neg hk]
    push_neg at hk
    constructor
    · intro j hj
      by_cases hji : j = i
      · rw [hji]; exact hk
      · exact hpre j (by omega)
    · intro j _; rfl

theorem auxFields_mounted {a b : UsbState} (h : auxFields a = auxFields b) :
    a.mounted = b.mounted := by
  simpa [auxFields, Prod.ext_iff] using congrArg Prod.fst h

theorem releaseHeldKeys_getD (s : UsbState) (hm : s.mounted = true) :
    ∀ j, j ≤ 5 → (releaseHeldKeys s).keycodes.getD j 0 = 0 := by
  have a0 := relStep_getD s 0 hm (by intro j hj; omega)
  have m0 : (relStep 0 s).mounted = true := by
    rw [auxFields_mounted (relStep_aux 0 s)]; exact hm
  have a1 := relStep_getD (relStep 0 s) 1 m0 (by
    intro j hj
    have : j = 0 := by omega
    rw [this]
    exact a0.1 0 (by omega))
  have m1 : (relStep 1 (relStep 0 s)).mounted = true := by
    rw [auxFields_mounted (relStep_aux 1 _)]; exact m0
  have a2 := relStep_getD _ 2 m1 (by
    intro j hj
    have hle : j ≤ 1 := by omega
    exact a1.1 j hle)
  have m2 : (relStep 2 (relStep 1 (relStep 0 s))).mounted = true := by
    rw [auxFields_mounted (relStep_aux 2 _)]; exact m1
  have a3 := relStep_getD _ 3 m2 (by
    intro j hj
    have hle : j ≤ 2 := by omega
    exact a2.1 j hle)
  have m3 : (relStep 3 (relStep 2 (relStep 1 (relStep 0 s)))).mounted = true := by
    rw [auxFields_mounted (relStep_aux 3 _)]; exact m2
  have a4 := relStep_getD _ 4 m3 (by
    intro j hj
    have hle : j ≤ 3 := by omega
    exact a3.1 j hle)
  have m4 : (relStep 4 (relStep 3 (relStep 2 (relStep 1 (relStep 0 s))))).mounted
      = true := by
    rw [auxFields_mounted (relStep_aux 4 _)]; exact m3
  have a5 := relStep_getD _ 5 m4 (by
    intro j hj
    have hle : j ≤ 4 := by omega
    exact a4.1 j hle)
  intro j hj
  exact a5.1 j hj

/-- After the release loop, every slot of the six-byte array is zero. -/
theorem releaseHeldKeys_all_zero (s : UsbState) (hm : s.mounted = true)
    (hlen : s.keycodes.length = 6) :
    ∀ m ∈ (releaseHeldKeys s).keycodes, m = 0 := by
  intro m hmem
  have hlen' : (releaseHeldKeys s).keycodes.length = 6 := by
    rw [releaseHeldKeys_keycodes_length]; exact hlen
  rcases List.mem_iff_getElem.mp hmem with ⟨i, hi, hget⟩
  have hi6 : i ≤ 5 := by omega
  have hz := releaseHeldKeys_getD s hm i hi6
  rw [List.getD_eq_getElem _ 0 hi] at hz
  rw [← hget]
  exact hz

theorem moveMouse_keycodes (b : Nat) (x y v h : Int) (s : UsbState) :
    (moveMouse b x y v h s).keycodes = s.keycodes := by
  unfold moveMouse
  split <;> rfl

/-- Sign interpretation of a payload byte as C `int8_t`. -/
def toInt8 (b : Nat) : Int :=
  if b < 128 then (b : Int) else (b : Int) - 256

/-- The explicit ±127 clamp applied to `HID_CMD_MOUSE_MOVE` deltas in
`process_hid_command` before calling `move_mouse`. -/
def clampWs (v : Int) : Int :=
  if v < -127 then -127 else if v > 127 then 127 else v

/-- `process_hid_command` from `src/websocket/websocket.c` (the body in
`src/httpd/httpd_websocket.c` is identical up to the shadow variable):
decodes one binary frame payload and drives the HID core.  `cur` is the
module-static `current_buttons` shadow; the result pairs its new value
with the new HID state.  Payload entries are bytes (values < 256). -/
def wsProcessHidCommand (cur : Nat) (payload : List Nat) (s : UsbState) :
    Nat × UsbState :=
  match payload with
  | [] => (cur, s)
  | cmd :: rest =>
      if cmd = 0x01 then
        match rest with
        | keycode :: down :: _ =>
            if down ≠ 0 then (cur, pressKey keycode s)
            else (cur, depressKey keycode s)
        | _ => (cur, s)
      else if cmd = 0x02 then
        match rest with
        | b1 :: b2 :: b3 :: b4 :: _ =>
            (cur, moveMouse cur (clampWs (wrap16 ((b1 : Int) + 256 * b2)))
              (clampWs (wrap16 ((b3 : Int) + 256 * b4))) 0 0 s)
        | _ => (cur, s)
      else if cmd = 0x03 then
        match rest with
        | button :: down :: _ =>
            if down ≠ 0 then
              (cur ||| button, moveMouse (cur ||| button) 0 0 0 0 s)
            else
              (cur &&& (255 ^^^ button % 256),
                moveMouse (cur &&& (255 ^^^ button % 256)) 0 0 0 0 s)
        | _ => (cur, s)
      else if cmd = 0x04 then
        match rest with
        | sx :: sy :: _ =>
            (cur, moveMouse cur 0 0 (toInt8 (sy % 256)) (toInt8 (sx % 256)) s)
        | _ => (cur, s)
      else if cmd = 0x06 then
        match rest with
        | lo :: hi :: down :: _ =>
            if down ≠ 0 then (cur, pressConsumer ((lo + 256 * hi) % 65536) s)
            else (cur, releaseConsumer s)
        | _ => (cur, s)
      else if cmd = 0x07 then
        match rest with
        | lo :: hi :: down :: _ =>
            if down ≠ 0 then (cur, pressSystem ((lo + 256 * hi) % 65536) s)
            else (cur, releaseSystem s)
        | _ => (cur, s)
      else if cmd = 0x0F then (0, websocketReleaseAll s)
      else (cur, s)

theorem moveMouse_fifoSystem (b : Nat) (x y v h : Int) (s : UsbState) :
    (moveMouse b x y v h s).fifoSystem = s.fifoSystem := by
  unfold moveMouse
  split <;> rfl

theorem moveMouse_fifoConsumer (b : Nat) (x y v h : Int) (s : UsbState) :
    (moveMouse b x y v h s).fifoConsumer = s.fifoConsumer := by
  unfold moveMouse
  split <;> rfl

theorem moveMouse_accDx (b : Nat) (x y v h : Int) (s : UsbState)
    (hm : s.mounted = true) : (moveMouse b x y v h s).accDx = s.accDx + x := by
  simp [moveMouse, hm]

theorem moveMouse_accDy (b : Nat) (x y v h : Int) (s : UsbState)
    (hm : s.mounted = true) : (moveMouse b x y v h s).accDy = s.accDy + y := by
  simp [moveMouse, hm]

theorem moveMouse_accV (b : Nat) (x y v h : Int) (s : UsbState)
    (hm : s.mounted = true) : (moveMouse b x y v h s).accV = s.accV + v := by
  simp [moveMouse, hm]

theorem moveMouse_accH (b : Nat) (x y v h : Int) (s : UsbState)
    (hm : s.mounted = true) : (moveMouse b x y v h s).accH = s.accH + h := by
  simp [moveMouse, hm]

theorem moveMouse_accButtons (b : Nat) (x y v h : Int) (s : UsbState)
    (hm : s.mounted = true) : (moveMouse b x y v h s).accButtons = b := by
  simp [moveMouse, hm]

theorem moveMouse_fifoMouseBtn (b : Nat) (x y v h : Int) (s : UsbState)
    (hm : s.mounted = true) :
    (moveMouse b x y v h s).fifoMouseBtn =
      (if b ≠ s.accButtons then queueTryAdd s.fifoMouseBtn 8 b else s.fifoMouseBtn) := by
  simp [moveMouse, hm]

theorem releaseConsumer_fifoConsumer (s : UsbState) (hm : s.mounted = true) :
    (releaseConsumer s).fifoConsumer = queueTryAdd s.fifoConsumer 32 0 := by
  simp [releaseConsumer, hm]

theorem releaseConsumer_fifoSystem (s : UsbState) :
    (releaseConsumer s).fifoSystem = s.fifoSystem := by
  unfold releaseConsumer
  split <;> rfl

theorem releaseConsumer_keycodes (s : UsbState) :
    (releaseConsumer s).keycodes = s.keycodes := by
  unfold releaseConsumer
  split <;> rfl

/-- The concrete state used to exercise the release paths: mounted, key 4
held, 5 counts of accumulated dx, button mask 1. -/
def relExState : UsbState :=
  { mountedInit with keycodes := [4, 0, 0, 0, 0, 0], accDx := 5, accButtons := 1 }

/-- Claim C1 (amended): each ingress release operation — WebSocket
(framed command 0x0F), pub/sub (`<base>/release`) and HTTP
(`POST /api/hid/release`) — depresses every held key individually, leaving
the six-slot array empty, resets the accumulator's button mask to zero
(enqueuing a zero button transition only when the mask was nonzero and the
8-deep queue has room), and leaves the accumulated motion deltas
untouched.  Only the pub/sub variant enqueues a consumer release; none of
the three enqueues a system release (`fifo_system` is unchanged). -/
theorem c1_theorem (s : UsbState) (hm : s.mounted = true)
    (hlen : s.keycodes.length = 6) :
    (∀ m ∈ (websocketReleaseAll s).keycodes, m = 0)
    ∧ (websocketReleaseAll s).accButtons = 0
    ∧ (websocketReleaseAll s).accDx = s.accDx
    ∧ (websocketReleaseAll s).accDy = s.accDy
    ∧ (websocketReleaseAll s).accV = s.accV
    ∧ (websocketReleaseAll s).accH = s.accH
    ∧ (websocketReleaseAll s).fifoSystem = s.fifoSystem
    ∧ (websocketReleaseAll s).fifoConsumer = s.fifoConsumer
    ∧ (websocketReleaseAll s).fifoMouseBtn =
        (if (0 : Nat) ≠ s.accButtons then queueTryAdd s.fifoMouseBtn 8 0
         else s.fifoMouseBtn)
    ∧ (∀ m ∈ (mqttReleaseAllKeys s).keycodes, m = 0)
    ∧ (mqttReleaseAllKeys s).fifoConsumer = queueTryAdd s.fifoConsumer 32 0
    ∧ (mqttReleaseAllKeys s).fifoSystem = s.fifoSystem
    ∧ processHidRelease s = websocketReleaseAll s
    ∧ (∀ cur : Nat, wsProcessHidCommand cur [0x0F] s = (0, websocketReleaseAll s)) := by
  have haux := releaseHeldKeys_aux s
  simp only [auxFields, Prod.ext_iff] at haux
  obtain ⟨hmt, hdx, hdy, hv, hh, hbtn, hlast, hcons, hsys, hbq⟩ := haux
  rw [hm] at hmt
  have hall := releaseHeldKeys_all_zero s hm hlen
  have hmved : (moveMouse 0 0 0 0 0 (releaseHeldKeys s)).mounted = true := by
    rw [moveMouse_mounted]
    exact hmt
  refine ⟨?_, ?_, ?_, ?_, ?_, ?_, ?_, ?_, ?_, ?_, ?_, ?_, rfl, fun cur => rfl⟩
  · intro m hmem
    rw [show (websocketReleaseAll s).keycodes = (releaseHeldKeys s).keycodes from
      moveMouse_keycodes 0 0 0 0 0 (releaseHeldKeys s)] at hmem
    exact hall m hmem
  · exact moveMouse_accButtons 0 0 0 0 0 (releaseHeldKeys s) hmt
  · rw [show (websocketReleaseAll s).accDx
        = (releaseHeldKeys s).accDx + 0 from moveMouse_accDx 0 0 0 0 0 _ hmt]
    omega
  · rw [show (websocketReleaseAll s).accDy
        = (releaseHeldKeys s).accDy + 0 from moveMouse_accDy 0 0 0 0 0 _ hmt]
    omega
  · rw [show (websocketReleaseAll s).accV
        = (releaseHeldKeys s).accV + 0 from moveMouse_accV 0 0 0 0 0 _ hmt]
    omega
  · rw [show (websocketReleaseAll s).accH
        = (releaseHeldKeys s).accH + 0 from moveMouse_accH 0 0 0 0 0 _ hmt]
    omega
  · rw [show (websocketReleaseAll s).fifoSystem
        = (releaseHeldKeys s).fifoSystem from moveMouse_fifoSystem 0 0 0 0 0 _]
    exact hsys
  · rw [show (websocketReleaseAll s).fifoConsumer
        = (releaseHeldKeys s).fifoConsumer from moveMouse_fifoConsumer 0 0 0 0 0 _]
    exact hcons
  · rw [show (websocketReleaseAll s).fifoMouseBtn
        = (if (0 : Nat) ≠ (releaseHeldKeys s).accButtons
           then queueTryAdd (releaseHeldKeys s).fifoMouseBtn 8 0
           else (releaseHeldKeys s).fifoMouseBtn) from
      moveMouse_fifoMouseBtn 0 0 0 0 0 _ hmt]
    rw [hbtn, hbq]
  · intro m hmem
    rw [show (mqttReleaseAllKeys s).keycodes
          = (moveMouse 0 0 0 0 0 (releaseHeldKeys s)).keycodes from
        releaseConsumer_keycodes _,
      moveMouse_keycodes 0 0 0 0 0 (releaseHeldKeys s)] at hmem
    exact hall m hmem
  · rw [show (mqttReleaseAllKeys s).fifoConsumer
        = queueTryAdd (moveMouse 0 0 0 0 0 (releaseHeldKeys s)).fifoConsumer 32 0 from
      releaseConsumer_fifoConsumer _ hmved]
    rw [moveMouse_fifoConsumer 0 0 0 0 0 (releaseHeldKeys s), hcons]
  · rw [show (mqttReleaseAllKeys s).fifoSystem
        = (moveMouse 0 0 0 0 0 (releaseHeldKeys s)).fifoSystem from
      releaseConsumer_fifoSystem _]
    rw [moveMouse_fifoSystem 0 0 0 0 0 (releaseHeldKeys s)]
    exact hsys

/-- Witness for C1: the amended theorem evaluated at a state with one held
key, a pending delta and a pressed button mask. -/
theorem c1_witness :
    (∀ m ∈ (websocketReleaseAll relExState).keycodes, m = 0)
    ∧ (websocketReleaseAll relExState).accDx = relExState.accDx := by
  have h := c1_theorem relExState (by decide) (by decide)
  exact ⟨h.1, h.2.2.1⟩

/-- Counterexample to C1 as stated: from a mounted state holding key 4
with accumulated dx = 5, every one of the three release implementations
leaves `fifo_system` empty (no system release is emitted — the claim
requires one) and leaves the accumulated dx at 5 (the claim requires the
deltas to be zeroed). -/
theorem c1_counterexample :
    (websocketReleaseAll relExState).fifoSystem = []
    ∧ (websocketReleaseAll relExState).accDx = 5
    ∧ (mqttReleaseAllKeys relExState).fifoSystem = []
    ∧ (processHidRelease relExState).fifoSystem = []
    ∧ (processHidRelease relExState).accDx = 5 := by
  refine ⟨by decide, by decide, by decide, by decide, by decide⟩

/-!
### Settings store (`src/settings.c`) — claims C7 and C8

The flash sector holds one `flash_config_t` record.  We model the sector
content as a `FlashConfig` value; `write_config` replaces it wholesale.
String fields hold the byte content (the C arrays are these bytes padded
with NULs to their fixed widths — `bytesOf` realises the padding for the
checksum).  The checksum is the byte sum of the serialised record up to
(and excluding) the checksum field, XORed with 0xDEADBEEF, exactly as
`calc_checksum` computes it.
-/

/-- `CONFIG_MAGIC` (`"NET6"`). -/
def CONFIG_MAGIC : Nat := 0x4E455436

/-- The `flash_config_t` record from `src/settings.c`. -/
structure FlashConfig where
  magic : Nat
  settingsFlags : Nat
  forceApMode : Nat
  hasCredentials : Nat
  reservedFlags : List Nat
  wifiSsid : List Nat
  wifiPassword : List Nat
  hostname : List Nat
  mqttEnabled : Nat
  mqttPort : Nat
  mqttBroker : List Nat
  mqttTopic : List Nat
  mqttUsername : List Nat
  mqttPassword : List Nat
  mqttClientId : List Nat
  syslogServer : List Nat
  syslogPort : Nat
  reservedSettings : List Nat
  checksum : Nat
  deriving Repr, DecidableEq

/-- A byte array of width `w`: the (byte-reduced) content truncated to `w`
and padded with NULs. -/
def bytesOf (w : Nat) (l : List Nat) : List Nat :=
  ((l.map (· % 256)).take w) ++ List.replicate (w - min l.length w) 0

/-- Little-endian bytes of a `uint16_t`. -/
def le16 (n : Nat) : List Nat :=
  [n % 256, n / 256 % 256]

/-- Little-endian bytes of a `uint32_t`. -/
def le32 (n : Nat) : List Nat :=
  [n % 256, n / 256 % 256, n / 65536 % 256, n / 16777216 % 256]

/-- The in-memory byte image of the record up to `offsetof(checksum)`,
following the field layout (and absence of padding) of `flash_config_t`. -/
def serialize (c : FlashConfig) : List Nat :=
  le32 c.magic ++ le32 c.settingsFlags ++
    [c.forceApMode % 256, c.hasCredentials % 256] ++ bytesOf 2 c.reservedFlags ++
    bytesOf 33 c.wifiSsid ++ bytesOf 65 c.wifiPassword ++ bytesOf 33 c.hostname ++
    [c.mqttEnabled % 256] ++ le16 c.mqttPort ++
    bytesOf 64 c.mqttBroker ++ bytesOf 64 c.mqttTopic ++
    bytesOf 32 c.mqttUsername ++ bytesOf 64 c.mqttPassword ++
    bytesOf 32 c.mqttClientId ++ bytesOf 64 c.syslogServer ++
    le16 c.syslogPort ++ bytesOf 16 c.reservedSettings

/-- `calc_checksum`: byte sum (a `uint32_t`) XOR 0xDEADBEEF. -/
def calcChecksum (c : FlashConfig) : Nat :=
  ((serialize c).sum % 4294967296) ^^^ 0xDEADBEEF

/-- `read_config`: authoritative only when the magic and the checksum both
verify; otherwise the record counts as absent. -/
def readConfig (fl : FlashConfig) : Option FlashConfig :=
  if fl.magic ≠ CONFIG_MAGIC then none
  else if fl.checksum ≠ calcChecksum fl then none
  else some fl

/-- `init_fresh_config`: zeroed record with magic and default ports. -/
def freshConfig : FlashConfig :=
  { magic := CONFIG_MAGIC, settingsFlags := 0, forceApMode := 0
    hasCredentials := 0, reservedFlags := [], wifiSsid := []
    wifiPassword := [], hostname := [], mqttEnabled := 0
    mqttPort := 1883, mqttBroker := [], mqttTopic := []
    mqttUsername := [], mqttPassword := [], mqttClientId := []
    syslogServer := [], syslogPort := 514, reservedSettings := []
    checksum := 0 }

/-- Recompute and store the checksum (the step every setter performs just
before `write_config`). -/
def withChecksum (c : FlashConfig) : FlashConfig :=
  { c with checksum := calcChecksum c }

/-- The base config every setter starts from: the current record when it
verifies, else fresh defaults. -/
def currentOrFresh (fl : FlashConfig) : FlashConfig :=
  (readConfig fl).getD freshConfig

/-- RFC 1123 character test from `validate_hostname`. -/
def isHostChar (c : Nat) : Bool :=
  (97 ≤ c && c ≤ 122) || (65 ≤ c && c ≤ 90) || (48 ≤ c && c ≤ 57) || c = 45

/-- `validate_hostname` from `src/settings.c`. -/
def validateHostname (h : List Nat) : Bool :=
  decide (h.length ≠ 0) && decide (h.length ≤ 32) &&
    decide (h.headD 0 ≠ 45) && decide (h.getLastD 0 ≠ 45) && h.all isHostChar

/-- `settings_set_hostname`: validate, read-or-default, set the field and
its presence bit, recompute the checksum, rewrite the sector. -/
def settingsSetHostname (h : List Nat) (fl : FlashConfig) : Bool × FlashConfig :=
  if ¬validateHostname h then (false, fl)
  else
    let cfg := currentOrFresh fl
    (true, withChecksum
      { cfg with hostname := bytesOf 33 h, settingsFlags := cfg.settingsFlags ||| 1 })

/-- `settings_set_mqtt_enabled`. -/
def settingsSetMqttEnabled (e : Bool) (fl : FlashConfig) : Bool × FlashConfig :=
  let cfg := currentOrFresh fl
  (true, withChecksum
    { cfg with mqttEnabled := if e then 1 else 0
               settingsFlags := cfg.settingsFlags ||| 64 })

/-- `settings_set_mqtt_port` (rejects port 0). -/
def settingsSetMqttPort (p : Nat) (fl : FlashConfig) : Bool × FlashConfig :=
  if p = 0 then (false, fl)
  else
    let cfg := currentOrFresh fl
    (true, withChecksum
      { cfg with mqttPort := p, settingsFlags := cfg.settingsFlags ||| 4 })

/-- `settings_set_mqtt_broker` (length-limited to 63). -/
def settingsSetMqttBroker (b : List Nat) (fl : FlashConfig) : Bool × FlashConfig :=
  if b.length > 63 then (false, fl)
  else
    let cfg := currentOrFresh fl
    (true, withChecksum
      { cfg with mqttBroker := bytesOf 64 b, settingsFlags := cfg.settingsFlags ||| 2 })

/-- `settings_set_mqtt_topic`. -/
def settingsSetMqttTopic (t : List Nat) (fl : FlashConfig) : Bool × FlashConfig :=
  if t.length > 63 then (false, fl)
  else
    let cfg := currentOrFresh fl
    (true, withChecksum
      { cfg with mqttTopic := bytesOf 64 t, settingsFlags := cfg.settingsFlags ||| 8 })

/-- `settings_set_mqtt_username` (empty clears the field and its bit). -/
def settingsSetMqttUsername (u : List Nat) (fl : FlashConfig) : Bool × FlashConfig :=
  if u.length > 31 then (false, fl)
  else
    let cfg := currentOrFresh fl
    (true, withChecksum
      { cfg with mqttUsername := bytesOf 32 u
                 settingsFlags := if u.length > 0 then cfg.settingsFlags ||| 16
                                  else cfg.settingsFlags &&& (4294967295 ^^^ 16) })

/-- `settings_set_mqtt_password` (empty clears the field and its bit). -/
def settingsSetMqttPassword (p : List Nat) (fl : FlashConfig) : Bool × FlashConfig :=
  if p.length > 63 then (false, fl)
  else
    let cfg := currentOrFresh fl
    (true, withChecksum
      { cfg with mqttPassword := bytesOf 64 p
                 settingsFlags := if p.length > 0 then cfg.settingsFlags ||| 32
                                  else cfg.settingsFlags &&& (4294967295 ^^^ 32) })

/-- `settings_set_mqtt_client_id` (empty clears the field and its bit). -/
def settingsSetMqttClientId (cid : List Nat) (fl : FlashConfig) : Bool × FlashConfig :=
  if cid.length > 31 then (false, fl)
  else
    let cfg := currentOrFresh fl
    (true, withChecksum
      { cfg with mqttClientId := bytesOf 32 cid
                 settingsFlags := if cid.length > 0 then cfg.settingsFlags ||| 128
                                  else cfg.settingsFlags &&& (4294967295 ^^^ 128) })

/-- `settings_set_syslog_server` (empty clears the field and its bit). -/
def settingsSetSyslogServer (sv : List Nat) (fl : FlashConfig) : Bool × FlashConfig :=
  if sv.length > 63 then (false, fl)
  else
    let cfg := currentOrFresh fl
    (true, withChecksum
      { cfg with syslogServer := bytesOf 64 sv
                 settingsFlags := if sv.length > 0 then cfg.settingsFlags ||| 256
                                  else cfg.settingsFlags &&& (4294967295 ^^^ 256) })

/-- `settings_set_syslog_port` (rejects port 0). -/
def settingsSetSyslogPort (p : Nat) (fl : FlashConfig) : Bool × FlashConfig :=
  if p = 0 then (false, fl)
  else
    let cfg := currentOrFresh fl
    (true, withChecksum
      { cfg with syslogPort := p, settingsFlags := cfg.settingsFlags ||| 512 })

/-- A parsed `POST /api/settings` body: the optional fields that
`process_settings_post` extracts from the JSON document. -/
structure SettingsReq where
  hostname : Option (List Nat)
  mqttEnabled : Option Bool
  mqttPort : Option Int
  mqttBroker : Option (List Nat)
  mqttTopic : Option (List Nat)
  mqttUsername : Option (List Nat)
  mqttPassword : Option (List Nat)
  mqttClientId : Option (List Nat)
  syslogServer : Option (List Nat)
  syslogPort : Option Int
  deriving Repr, DecidableEq

/-- The empty request (no fields present). -/
def emptyReq : SettingsReq :=
  { hostname := none, mqttEnabled := none, mqttPort := none, mqttBroker := none
    mqttTopic := none, mqttUsername := none, mqttPassword := none
    mqttClientId := none, syslogServer := none, syslogPort := none }

/-- Sequencing of the per-field handling in `process_settings_post`: once
an error is recorded the function has returned, so later fields are not
examined; otherwise the next field handler runs on the updated flash. -/
def pstep (r : Option String × FlashConfig)
    (f : FlashConfig → Option String × FlashConfig) : Option String × FlashConfig :=
  match r with
  | (some e, fl) => (some e, fl)
  | (none, fl) => f fl

/-- Hostname branch of `process_settings_post`. -/
def hostnameStep (req : SettingsReq) (fl : FlashConfig) : Option String × FlashConfig :=
  match req.hostname with
  | none => (none, fl)
  | some h =>
      if h.length = 0 then (none, fl)
      else if h.length > 32 then (some "Hostname too long", fl)
      else if (settingsSetHostname h fl).1 then (none, (settingsSetHostname h fl).2)
      else (some "Invalid hostname format", fl)

/-- `mqtt_enabled` branch. -/
def mqttEnabledStep (req : SettingsReq) (fl : FlashConfig) : Option String × FlashConfig :=
  match req.mqttEnabled with
  | none => (none, fl)
  | some e => (none, (settingsSetMqttEnabled e fl).2)

/-- `mqtt_port` branch: range check before the setter. -/
def mqttPortStep (req : SettingsReq) (fl : FlashConfig) : Option String × FlashConfig :=
  match req.mqttPort with
  | none => (none, fl)
  | some p =>
      if 0 < p ∧ p ≤ 65535 then (none, (settingsSetMqttPort p.toNat fl).2)
      else (some "Invalid MQTT port", fl)

/-- `mqtt_broker` branch. -/
def mqttBrokerStep (req : SettingsReq) (fl : FlashConfig) : Option String × FlashConfig :=
  match req.mqttBroker with
  | none => (none, fl)
  | some b =>
      if b.length > 63 then (some "MQTT broker too long", fl)
      else (none, (settingsSetMqttBroker b fl).2)

/-- `mqtt_topic` branch. -/
def mqttTopicStep (req : SettingsReq) (fl : FlashConfig) : Option String × FlashConfig :=
  match req.mqttTopic with
  | none => (none, fl)
  | some t =>
      if t.length > 63 then (some "MQTT topic too long", fl)
      else (none, (settingsSetMqttTopic t fl).2)

/-- `mqtt_username` branch. -/
def mqttUsernameStep (req : SettingsReq) (fl : FlashConfig) : Option String × FlashConfig :=
  match req.mqttUsername with
  | none => (none, fl)
  | some u =>
      if u.length > 31 then (some "MQTT username too long", fl)
      else (none, (settingsSetMqttUsername u fl).2)

/-- `mqtt_password` branch. -/
def mqttPasswordStep (req : SettingsReq) (fl : FlashConfig) : Option String × FlashConfig :=
  match req.mqttPassword with
  | none => (none, fl)
  | some p =>
      if p.length > 63 then (some "MQTT password too long", fl)
      else (none, (settingsSetMqttPassword p fl).2)

/-- `mqtt_client_id` branch. -/
def mqttClientIdStep (req : SettingsReq) (fl : FlashConfig) : Option String × FlashConfig :=
  match req.mqttClientId with
  | none => (none, fl)
  | some cid =>
      if cid.length > 31 then (some "MQTT client ID too long", fl)
      else (none, (settingsSetMqttClientId cid fl).2)

/-- `syslog_server` branch. -/
def syslogServerStep (req : SettingsReq) (fl : FlashConfig) : Option String × FlashConfig :=
  match req.syslogServer with
  | none => (none, fl)
  | some sv =>
      if sv.length > 63 then (some "Syslog server too long", fl)
      else (none, (settingsSetSyslogServer sv fl).2)

/-- `syslog_port` branch. -/
def syslogPortStep (req : SettingsReq) (fl : FlashConfig) : Option String × FlashConfig :=
  match req.syslogPort with
  | none => (none, fl)
  | some p =>
      if 0 < p ∧ p ≤ 65535 then (none, (settingsSetSyslogPort p.toNat fl).2)
      else (some "Invalid syslog port", fl)

/-- `process_settings_post` from `src/httpd/httpd.c` (the body of
`handle_api_settings_post` in `src/httpd/httpd_handlers.c` is the same
logic): parse the JSON, then handle the fields in order, each one applying
its setter immediately and aborting with an error string on the first
validation failure.  Returns the error (if any) and the resulting flash
sector content. -/
def processSettingsPost (body : Option SettingsReq) (fl0 : FlashConfig) :
    Option String × FlashConfig :=
  match body with
  | none => (some "Invalid JSON", fl0)
  | some req =>
      pstep (pstep (pstep (pstep (pstep (pstep (pstep (pstep (pstep
        (hostnameStep req fl0)
        (mqttEnabledStep req)) (mqttPortStep req)) (mqttBrokerStep req))
        (mqttTopicStep req)) (mqttUsernameStep req)) (mqttPasswordStep req))
        (mqttClientIdStep req)) (syslogServerStep req)) (syslogPortStep req)

lemma withChecksum_magic (c : FlashConfig) : (withChecksum c).magic = c.magic := rfl

lemma withChecksum_checksum (c : FlashConfig) :
    (withChecksum c).checksum = calcChecksum c := rfl

lemma calcChecksum_withChecksum (c : FlashConfig) :
    calcChecksum (withChecksum c) = calcChecksum c := rfl

lemma readConfig_of_valid (fl : FlashConfig) (hm : fl.magic = CONFIG_MAGIC)
    (hck : fl.checksum = calcChecksum fl) : readConfig fl = some fl := by
  simp [readConfig, hm, hck]

lemma readConfig_withChecksum (c : FlashConfig) (hm : c.magic = CONFIG_MAGIC) :
    readConfig (withChecksum c) = some (withChecksum c) :=
  readConfig_of_valid _ (by rw [withChecksum_magic, hm])
    (by rw [withChecksum_checksum, calcChecksum_withChecksum])

lemma currentOrFresh_of_valid (fl : FlashConfig) (hm : fl.magic = CONFIG_MAGIC)
    (hck : fl.checksum = calcChecksum fl) : currentOrFresh fl = fl := by
  simp [currentOrFresh, readConfig_of_valid fl hm hck]

lemma settingsSetHostname_ok (h : List Nat) (fl : FlashConfig)
    (hv : validateHostname h = true) : (settingsSetHostname h fl).1 = true := by
  simp [settingsSetHostname, hv]

lemma validateHostname_length (h : List Nat) (hv : validateHostname h = true) :
    h.length ≠ 0 ∧ h.length ≤ 32 := by
  simp only [validateHostname, Bool.and_eq_true, decide_eq_true_eq] at hv
  exact ⟨hv.1.1.1.1, hv.1.1.1.2⟩

lemma pstep_none (fl : FlashConfig) (f : FlashConfig → Option String × FlashConfig) :
    pstep (none, fl) f = f fl := rfl

lemma pstep_error (e : String) (fl : FlashConfig)
    (f : FlashConfig → Option String × FlashConfig) :
    pstep (some e, fl) f = (some e, fl) := rfl

/-- C7: writing through `settings_set_hostname` on a flash sector holding a
valid record succeeds, and a subsequent `read_config` returns a record with
the new hostname, its presence bit (bit 0) set, the checksum verifying, and
every other field — and every other flag bit — carrying its prior value:
the setter read-modify-writes the whole record. -/
theorem c7_theorem (fl : FlashConfig) (h : List Nat)
    (hm : fl.magic = CONFIG_MAGIC) (hck : fl.checksum = calcChecksum fl)
    (hv : validateHostname h = true) :
    ∃ cfg', settingsSetHostname h fl = (true, cfg')
      ∧ readConfig cfg' = some cfg'
      ∧ cfg'.hostname = bytesOf 33 h
      ∧ cfg'.settingsFlags.testBit 0 = true
      ∧ cfg'.checksum = calcChecksum cfg'
      ∧ cfg'.settingsFlags = fl.settingsFlags ||| 1
      ∧ cfg'.magic = fl.magic
      ∧ cfg'.forceApMode = fl.forceApMode
      ∧ cfg'.hasCredentials = fl.hasCredentials
      ∧ cfg'.reservedFlags = fl.reservedFlags
      ∧ cfg'.wifiSsid = fl.wifiSsid
      ∧ cfg'.wifiPassword = fl.wifiPassword
      ∧ cfg'.mqttEnabled = fl.mqttEnabled
      ∧ cfg'.mqttPort = fl.mqttPort
      ∧ cfg'.mqttBroker = fl.mqttBroker
      ∧ cfg'.mqttTopic = fl.mqttTopic
      ∧ cfg'.mqttUsername = fl.mqttUsername
      ∧ cfg'.mqttPassword = fl.mqttPassword
      ∧ cfg'.mqttClientId = fl.mqttClientId
      ∧ cfg'.syslogServer = fl.syslogServer
      ∧ cfg'.syslogPort = fl.syslogPort
      ∧ cfg'.reservedSettings = fl.reservedSettings := by
  have hcf : currentOrFresh fl = fl := currentOrFresh_of_valid fl hm hck
  refine ⟨withChecksum
    { fl with hostname := bytesOf 33 h, settingsFlags := fl.settingsFlags ||| 1 },
    ?_, ?_, rfl, ?_, ?_, rfl, rfl, rfl, rfl, rfl, rfl, rfl, rfl, rfl, rfl, rfl,
    rfl, rfl, rfl, rfl, rfl, rfl⟩
  · simp [settingsSetHostname, hv, hcf]
  · exact readConfig_withChecksum _ hm
  · simp [withChecksum, Nat.testBit_or]
  · rw [withChecksum_checksum, calcChecksum_withChecksum]

set_option maxRecDepth 100000

/-- C7 witness: a concrete valid sector and hostname "nh". -/
theorem c7_witness :
    (withChecksum freshConfig).magic = CONFIG_MAGIC
    ∧ (withChecksum freshConfig).checksum = calcChecksum (withChecksum freshConfig)
    ∧ validateHostname [110, 104] = true
    ∧ ∃ cfg', settingsSetHostname [110, 104] (withChecksum freshConfig) = (true, cfg')
      ∧ readConfig cfg' = some cfg'
      ∧ cfg'.hostname = bytesOf 33 [110, 104]
      ∧ cfg'.settingsFlags.testBit 0 = true
      ∧ cfg'.checksum = calcChecksum cfg'
      ∧ cfg'.settingsFlags = (withChecksum freshConfig).settingsFlags ||| 1
      ∧ cfg'.magic = (withChecksum freshConfig).magic
      ∧ cfg'.forceApMode = (withChecksum freshConfig).forceApMode
      ∧ cfg'.hasCredentials = (withChecksum freshConfig).hasCredentials
      ∧ cfg'.reservedFlags = (withChecksum freshConfig).reservedFlags
      ∧ cfg'.wifiSsid = (withChecksum freshConfig).wifiSsid
      ∧ cfg'.wifiPassword = (withChecksum freshConfig).wifiPassword
      ∧ cfg'.mqttEnabled = (withChecksum freshConfig).mqttEnabled
      ∧ cfg'.mqttPort = (withChecksum freshConfig).mqttPort
      ∧ cfg'.mqttBroker = (withChecksum freshConfig).mqttBroker
      ∧ cfg'.mqttTopic = (withChecksum freshConfig).mqttTopic
      ∧ cfg'.mqttUsername = (withChecksum freshConfig).mqttUsername
      ∧ cfg'.mqttPassword = (withChecksum freshConfig).mqttPassword
      ∧ cfg'.mqttClientId = (withChecksum freshConfig).mqttClientId
      ∧ cfg'.syslogServer = (withChecksum freshConfig).syslogServer
      ∧ cfg'.syslogPort = (withChecksum freshConfig).syslogPort
      ∧ cfg'.reservedSettings = (withChecksum freshConfig).reservedSettings :=
  ⟨by decide, by decide, by decide,
    c7_theorem (withChecksum freshConfig) [110, 104] (by decide) (by decide) (by decide)⟩

/-- C8 (amended): a bad-JSON body is rejected with "Invalid JSON" and
changes nothing; but a later-field validation failure (here an out-of-range
`mqtt_port`) is reported while the fields already handled (here the
hostname) HAVE been persisted: the resulting flash is exactly the one
`settings_set_hostname` wrote, not the original. -/
theorem c8_theorem (fl : FlashConfig) :
    processSettingsPost none fl = (some "Invalid JSON", fl)
    ∧ ∀ (h : List Nat) (p : Int), validateHostname h = true → p ≤ 0 ∨ 65535 < p →
        processSettingsPost
            (some { emptyReq with hostname := some h, mqttPort := some p }) fl
          = (some "Invalid MQTT port", (settingsSetHostname h fl).2) := by
  refine ⟨rfl, ?_⟩
  intro h p hv hp
  have hok := settingsSetHostname_ok h fl hv
  have hlen := validateHostname_length h hv
  have h2 : ¬ h.length > 32 := by omega
  have h3 : ¬ (0 < p ∧ p ≤ 65535) := by omega
  simp [processSettingsPost, hostnameStep, mqttEnabledStep, mqttPortStep,
    pstep_none, pstep_error, emptyReq, hlen.1, h2, h3, hok]

/-- C8 witness: concrete body with hostname "ab" and mqtt_port 0 on a fresh
valid sector. -/
theorem c8_witness :
    processSettingsPost none (withChecksum freshConfig)
        = (some "Invalid JSON", withChecksum freshConfig)
    ∧ processSettingsPost
          (some { emptyReq with hostname := some [97, 98], mqttPort := some 0 })
          (withChecksum freshConfig)
        = (some "Invalid MQTT port",
           (settingsSetHostname [97, 98] (withChecksum freshConfig)).2) :=
  ⟨(c8_theorem (withChecksum freshConfig)).1,
   (c8_theorem (withChecksum freshConfig)).2 [97, 98] 0 (by decide) (Or.inl (by decide))⟩


/-- C8 counterexample to the original claim: the request is rejected with
"Invalid MQTT port", yet a persistent state change HAS occurred — the
resulting flash differs from the original, carries the new hostname "ab"
with its presence bit set, and verifies as the current config. -/
theorem c8_counterexample :
    (processSettingsPost
        (some { emptyReq with hostname := some [97, 98], mqttPort := some 0 })
        (withChecksum freshConfig)).1 = some "Invalid MQTT port"
    ∧ (processSettingsPost
        (some { emptyReq with hostname := some [97, 98], mqttPort := some 0 })
        (withChecksum freshConfig)).2 ≠ withChecksum freshConfig
    ∧ (processSettingsPost
        (some { emptyReq with hostname := some [97, 98], mqttPort := some 0 })
        (withChecksum freshConfig)).2.hostname = bytesOf 33 [97, 98]
    ∧ (processSettingsPost
        (some { emptyReq with hostname := some [97, 98], mqttPort := some 0 })
        (withChecksum freshConfig)).2.settingsFlags.testBit 0 = true
    ∧ readConfig (processSettingsPost
        (some { emptyReq with hostname := some [97, 98], mqttPort := some 0 })
        (withChecksum freshConfig)).2
      = some (processSettingsPost
        (some { emptyReq with hostname := some [97, 98], mqttPort := some 0 })
        (withChecksum freshConfig)).2 := by
  refine ⟨by decide, by decide, by decide, by decide, by decide⟩

/-!
### MQTT reconnect backoff (`src/mqtt/mqtt.c`) — claim C9

`reconnect_delay_ms` starts at `MQTT_RECONNECT_MIN_MS` (1000).
`mqtt_enter_backoff` records `backoff_start_ms = millis()`, moves to
BACKOFF, and only then multiplies the delay by 2 (capped at 60000); the
BACKOFF arm of `mqtt_task` waits until `millis() - backoff_start_ms >=
reconnect_delay_ms` — i.e. on the already-doubled value.
`mqtt_connection_callback` resets the delay to 1000 on
`MQTT_CONNECT_ACCEPTED` (before subscribing); the subscribe callback that
actually enters READY never touches the delay.
-/

/-- `mqtt_state_t`. -/
inductive MqttSt where
  | disabled | idle | dnsResolving | connecting | subscribing | ready | error | backoff
  deriving Repr, DecidableEq

/-- The module state relevant to reconnect timing. -/
structure MqttCtx where
  st : MqttSt
  reconnectDelayMs : Nat
  backoffStart : Nat
  deriving Repr, DecidableEq

/-- State after `mqtt_init`. -/
def initCtx : MqttCtx :=
  { st := MqttSt.idle, reconnectDelayMs := 1000, backoffStart := 0 }

/-- `mqtt_enter_backoff`: stamp the start time, move to BACKOFF, then
double the delay with the 60000 cap (`*= 2; if > 60000 then 60000`, which
is `min (2d) 60000` since the delay never exceeds 60000). -/
def mqttEnterBackoff (now : Nat) (c : MqttCtx) : MqttCtx :=
  { c with st := MqttSt.backoff, backoffStart := now
           reconnectDelayMs := min (c.reconnectDelayMs * 2) 60000 }

/-- The ERROR and BACKOFF arms of the `mqtt_task` state machine (the other
states are advanced by network callbacks, not by the tick). -/
def mqttTaskStep (now : Nat) (c : MqttCtx) : MqttCtx :=
  if c.st = MqttSt.error then mqttEnterBackoff now c
  else if c.st = MqttSt.backoff then
    (if now - c.backoffStart ≥ c.reconnectDelayMs then { c with st := MqttSt.idle } else c)
  else c

/-- `mqtt_connection_status_t` outcomes distinguished by
`mqtt_connection_callback`. -/
inductive ConnStatus where
  | accepted | disconnected | refused
  deriving Repr, DecidableEq

/-- `mqtt_connection_callback`: on ACCEPTED the delay is reset to 1000 and
the machine moves to SUBSCRIBING (or straight to ERROR if the subscribe
call itself fails, `subCallOk = false`); DISCONNECTED and refusal both end
in ERROR without touching the delay. -/
def mqttConnectionCallback (status : ConnStatus) (subCallOk : Bool) (c : MqttCtx) : MqttCtx :=
  match status with
  | ConnStatus.accepted =>
      if subCallOk then
        { c with reconnectDelayMs := 1000, st := MqttSt.subscribing }
      else
        { c with reconnectDelayMs := 1000, st := MqttSt.error }
  | ConnStatus.disconnected => { c with st := MqttSt.error }
  | ConnStatus.refused => { c with st := MqttSt.error }

/-- `mqtt_subscribe_callback`: READY on success, ERROR on failure; the
reconnect delay is not modified here. -/
def mqttSubscribeResult (ok : Bool) (c : MqttCtx) : MqttCtx :=
  if ok then { c with st := MqttSt.ready } else { c with st := MqttSt.error }

/-- One failed connection attempt starting from IDLE at time `t`: the
attempt is refused, the next tick enters backoff, and the machine sits in
BACKOFF until the first tick at which the (already doubled) delay has
elapsed.  Returns the observed wait, the exit time, and the exit state. -/
def failCycle (t : Nat) (c : MqttCtx) : Nat × Nat × MqttCtx :=
  let c1 := mqttConnectionCallback ConnStatus.refused true c
  let c2 := mqttTaskStep t c1
  (c2.reconnectDelayMs, t + c2.reconnectDelayMs, mqttTaskStep (t + c2.reconnectDelayMs) c2)

/-- The observed waits over `n` successive failed attempts. -/
def failTrace : Nat → Nat → MqttCtx → List Nat
  | 0, _, _ => []
  | n + 1, t, c =>
      (failCycle t c).1 :: failTrace n (failCycle t c).2.1 (failCycle t c).2.2

lemma failCycle_eq (t : Nat) (c : MqttCtx) (hst : c.st = MqttSt.idle) :
    failCycle t c = (min (c.reconnectDelayMs * 2) 60000,
      t + min (c.reconnectDelayMs * 2) 60000,
      { c with st := MqttSt.idle, backoffStart := t
               reconnectDelayMs := min (c.reconnectDelayMs * 2) 60000 }) := by
  simp [failCycle, mqttConnectionCallback, mqttTaskStep, mqttEnterBackoff, hst]

lemma two_mul_min_pow (k : Nat) :
    min (min (1000 * 2 ^ k) 60000 * 2) 60000 = min (1000 * 2 ^ (k + 1)) 60000 := by
  rw [pow_succ]
  omega

lemma failTrace_formula : ∀ (n k t : Nat) (c : MqttCtx), c.st = MqttSt.idle →
    c.reconnectDelayMs = min (1000 * 2 ^ k) 60000 →
    failTrace n t c = (List.range n).map (fun i => min (1000 * 2 ^ (k + i + 1)) 60000) := by
  intro n
  induction n with
  | zero => intro k t c _ _; simp [failTrace]
  | succ n ih =>
      intro k t c hst hd
      rw [failTrace, failCycle_eq t c hst]
      dsimp only
      have hd2 : min (c.reconnectDelayMs * 2) 60000 = min (1000 * 2 ^ (k + 1)) 60000 := by
        rw [hd]; exact two_mul_min_pow k
      rw [ih (k + 1) _ _ rfl (by simp [hd2]), hd2, List.range_succ_eq_map, List.map_cons,
        List.map_map]
      congr 1
      apply List.map_congr_left
      intro i _
      simp only [Function.comp_apply]
      have he : k + 1 + i + 1 = k + (i + 1) + 1 := by omega
      rw [he]

/-- C9 (amended): starting from init, the waits observed over successive
failed connection attempts are min(1000·2^(i+1), 60000) — i.e. 2, 4, 8,
16, 32, 60, 60, … seconds, NOT 1, 2, 4, …, because `mqtt_enter_backoff`
doubles the delay before the BACKOFF arm waits on it.  The reset to 1 s
happens on `MQTT_CONNECT_ACCEPTED` (before SUBSCRIBING), not on entry to
READY: the subscribe callback that enters READY leaves the delay alone.
The last conjunct pins the observed wait down operationally: after the
ERROR tick at time `t` the machine is in BACKOFF with the doubled delay,
stays put at every tick before `t + delay`, and exits to IDLE at
`t + delay`. -/
theorem c9_theorem :
    (∀ n t, failTrace n t initCtx
        = (List.range n).map (fun i => min (1000 * 2 ^ (i + 1)) 60000))
    ∧ (∀ (c : MqttCtx) (sub : Bool),
        (mqttConnectionCallback ConnStatus.accepted sub c).reconnectDelayMs = 1000
        ∧ ((mqttConnectionCallback ConnStatus.accepted sub c).st = MqttSt.subscribing
            ∨ (mqttConnectionCallback ConnStatus.accepted sub c).st = MqttSt.error))
    ∧ (∀ (ok : Bool) (c : MqttCtx),
        (mqttSubscribeResult ok c).reconnectDelayMs = c.reconnectDelayMs)
    ∧ (∀ (c : MqttCtx) (t t' : Nat),
        (mqttTaskStep t { c with st := MqttSt.error }).st = MqttSt.backoff
        ∧ (mqttTaskStep t { c with st := MqttSt.error }).reconnectDelayMs
            = min (c.reconnectDelayMs * 2) 60000
        ∧ (t ≤ t' → t' < t + min (c.reconnectDelayMs * 2) 60000 →
            mqttTaskStep t' (mqttTaskStep t { c with st := MqttSt.error })
              = mqttTaskStep t { c with st := MqttSt.error })
        ∧ (mqttTaskStep (t + min (c.reconnectDelayMs * 2) 60000)
            (mqttTaskStep t { c with st := MqttSt.error })).st = MqttSt.idle) := by
  refine ⟨?_, ?_, ?_, ?_⟩
  · intro n t
    have := failTrace_formula n 0 t initCtx rfl (by simp [initCtx])
    simpa using this
  · intro c sub
    cases sub <;> simp [mqttConnectionCallback]
  · intro ok c
    cases ok <;> simp [mqttSubscribeResult]
  · intro c t t'
    refine ⟨?_, ?_, ?_, ?_⟩
    · simp [mqttTaskStep, mqttEnterBackoff]
    · simp [mqttTaskStep, mqttEnterBackoff]
    · intro h1 h2
      have hlt : t' - t < min (c.reconnectDelayMs * 2) 60000 := by omega
      simp [mqttTaskStep, mqttEnterBackoff]
      omega
    · simp [mqttTaskStep, mqttEnterBackoff]

/-- C9 witness: four failure cycles from init observe waits
2000, 4000, 8000, 16000 ms; concrete applications of the reset and
backoff-timing conjuncts. -/
theorem c9_witness :
    failTrace 4 0 initCtx = [2000, 4000, 8000, 16000]
    ∧ (mqttConnectionCallback ConnStatus.accepted false initCtx).reconnectDelayMs = 1000
    ∧ (mqttSubscribeResult false initCtx).reconnectDelayMs = initCtx.reconnectDelayMs
    ∧ mqttTaskStep 7 (mqttTaskStep 3 { initCtx with st := MqttSt.error })
        = mqttTaskStep 3 { initCtx with st := MqttSt.error } := by
  refine ⟨(c9_theorem.1 4 0).trans (by decide),
    (c9_theorem.2.1 initCtx false).1,
    c9_theorem.2.2.1 false initCtx,
    (c9_theorem.2.2.2 initCtx 3 7).2.2.1 (by decide) (by decide)⟩

/-- C9 counterexample to the original claim: the observed delays after
three successive failures are 2, 4, 8 seconds, not the claimed 1, 2, 4;
and an ACCEPTED connection whose subscribe call fails resets the delay to
1 s while ending in ERROR — READY is never entered, refuting "reset
exactly on a successful entry into the Ready state". -/
theorem c9_counterexample :
    failTrace 3 0 initCtx = [2000, 4000, 8000]
    ∧ failTrace 3 0 initCtx ≠ [1000, 2000, 4000]
    ∧ (mqttConnectionCallback ConnStatus.accepted false
        { initCtx with st := MqttSt.connecting, reconnectDelayMs := 8000 }).st
        = MqttSt.error
    ∧ (mqttConnectionCallback ConnStatus.accepted false
        { initCtx with st := MqttSt.connecting, reconnectDelayMs := 8000 }).reconnectDelayMs
        = 1000 := by
  refine ⟨by decide, by decide, by decide, by decide⟩

/-!
### BOOTSEL long-press state machine (`src/ap_mode.c`, `bootsel_task`) — claim C6

Three states: IDLE, PRESSED, TRIGGERED.  The side effects of one
invocation (persisting the force-AP flag, the blocking LED feedback, the
watchdog reboot) are returned as an action list; `blink_state` and the
saved copy live in the context.  `BOOTSEL_HOLD_TIME_MS` is 5000 and
`BLINK_BOOTSEL_HELD` is 0b1010101010101010 = 43690.
-/

/-- The `bootsel_state` enum. -/
inductive BootselSt where
  | idle | pressed | triggered
  deriving Repr, DecidableEq

/-- Module state read and written by `bootsel_task`. -/
structure BootselCtx where
  st : BootselSt
  pressStart : Nat
  savedBlink : Nat
  blink : Nat
  deriving Repr, DecidableEq

/-- Externally visible side effects of one `bootsel_task` invocation, in
program order. -/
inductive BAct where
  | setForceFlag | ledFeedback | reboot
  deriving Repr, DecidableEq

/-- `bootsel_task`: one poll of the BOOTSEL button at time `now`. -/
def bootselTask (pressed : Bool) (now : Nat) (c : BootselCtx) : BootselCtx × List BAct :=
  match c.st with
  | BootselSt.idle =>
      if pressed then
        ({ c with st := BootselSt.pressed, pressStart := now, savedBlink := c.blink }, [])
      else (c, [])
  | BootselSt.pressed =>
      if ¬pressed then
        ({ c with st := BootselSt.idle, blink := c.savedBlink }, [])
      else if 5000 ≤ now - c.pressStart then
        ({ c with st := BootselSt.triggered },
         [BAct.setForceFlag, BAct.ledFeedback, BAct.reboot])
      else
        ({ c with blink := 43690 }, [])
  | BootselSt.triggered => (c, [])

/-- C6 (amended): the machine has exactly the transitions IDLE→PRESSED on
press (recording the press time and saving the blink pattern), PRESSED→
IDLE on release before the threshold (restoring the blink pattern, no
side effects), and PRESSED→TRIGGERED the moment the 5 s hold threshold
elapses while still pressed — in which single invocation the force-AP
flag is persisted, LED feedback is given, and the watchdog reboot is
issued immediately.  There is no WaitRelease state: the reboot happens at
the instant the threshold is reached, not after a release or a release
timeout.  Below the threshold the task only maintains the fast-blink
feedback. -/
theorem c6_theorem :
    (∀ (now : Nat) (c : BootselCtx), c.st = BootselSt.idle →
      bootselTask true now c
        = ({ c with st := BootselSt.pressed, pressStart := now, savedBlink := c.blink }, []))
    ∧ (∀ (now : Nat) (c : BootselCtx), c.st = BootselSt.pressed →
      bootselTask false now c
        = ({ c with st := BootselSt.idle, blink := c.savedBlink }, []))
    ∧ (∀ (now : Nat) (c : BootselCtx), c.st = BootselSt.pressed →
        5000 ≤ now - c.pressStart →
      bootselTask true now c
        = ({ c with st := BootselSt.triggered },
           [BAct.setForceFlag, BAct.ledFeedback, BAct.reboot]))
    ∧ (∀ (now : Nat) (c : BootselCtx), c.st = BootselSt.pressed →
        now - c.pressStart < 5000 →
      bootselTask true now c = ({ c with blink := 43690 }, [])) := by
  refine ⟨?_, ?_, ?_, ?_⟩
  · intro now c hst; simp [bootselTask, hst]
  · intro now c hst; simp [bootselTask, hst]
  · intro now c hst h; simp [bootselTask, hst, h]
  · intro now c hst h; simp [bootselTask, hst, Nat.not_le.2 h]

/-- C6 witness: the four transitions at concrete states and times. -/
theorem c6_witness :
    bootselTask true 100 { st := BootselSt.idle, pressStart := 0, savedBlink := 0, blink := 7 }
      = ({ st := BootselSt.pressed, pressStart := 100, savedBlink := 7, blink := 7 }, [])
    ∧ bootselTask false 300
        { st := BootselSt.pressed, pressStart := 100, savedBlink := 7, blink := 43690 }
      = ({ st := BootselSt.idle, pressStart := 100, savedBlink := 7, blink := 7 }, [])
    ∧ bootselTask true 5100
        { st := BootselSt.pressed, pressStart := 100, savedBlink := 7, blink := 43690 }
      = ({ st := BootselSt.triggered, pressStart := 100, savedBlink := 7, blink := 43690 },
         [BAct.setForceFlag, BAct.ledFeedback, BAct.reboot])
    ∧ bootselTask true 200
        { st := BootselSt.pressed, pressStart := 100, savedBlink := 7, blink := 0 }
      = ({ st := BootselSt.pressed, pressStart := 100, savedBlink := 7, blink := 43690 }, []) :=
  ⟨c6_theorem.1 100 _ rfl, c6_theorem.2.1 300 _ rfl,
   c6_theorem.2.2.1 5100 _ rfl (by decide), c6_theorem.2.2.2 200 _ rfl (by decide)⟩

/-- C6 counterexample to the original claim: at the very invocation in
which the 5 s threshold fires while the button is still held, the task
persists the force flag AND issues the watchdog reboot, moving to
TRIGGERED — there is no WaitRelease state and the reboot is not deferred
to a release or a 10 s timeout. -/
theorem c6_counterexample :
    (bootselTask true 5000
        { st := BootselSt.pressed, pressStart := 0, savedBlink := 5, blink := 43690 }).2
      = [BAct.setForceFlag, BAct.ledFeedback, BAct.reboot]
    ∧ BAct.reboot ∈ (bootselTask true 5000
        { st := BootselSt.pressed, pressStart := 0, savedBlink := 5, blink := 43690 }).2
    ∧ (bootselTask true 5000
        { st := BootselSt.pressed, pressStart := 0, savedBlink := 5, blink := 43690 }).1.st
      = BootselSt.triggered := by
  refine ⟨by decide, by decide, by decide⟩

/-!
### HID key names and execution (`src/hid_keys.c`) — claim C10

`hid_lookup_key` resolves a name to a `(code, type)` pair: single
alphanumeric characters, `0x`-prefixed hex codes (defaulting to the
keyboard class), then a case-insensitive table lookup.  The numeric codes
are TinyUSB's `HID_KEY_*` / `HID_USAGE_CONSUMER_*` /
`HID_USAGE_DESKTOP_SYSTEM_*` constants (the table source references
`class/hid/hid.h`).  `hid_execute_key` drives the USB HID core for the
keyboard and consumer classes but returns false for the system class
without touching the core.
-/

/-- `hid_key_type_t`. -/
inductive HidKeyType where
  | keyboard | consumer | system
  deriving Repr, DecidableEq

/-- `hid_key_info_t`. -/
structure HidKeyInfo where
  code : Nat
  type : HidKeyType
  deriving Repr, DecidableEq

/-- `hid_action_t`. -/
inductive HidAction where
  | tap | press | release
  deriving Repr, DecidableEq

/-- `key_table` from `src/hid_keys.c`, in source order (name, code, type). -/
def key_table : List (String × Nat × HidKeyType) :=
  [("A", 0x04, HidKeyType.keyboard), ("B", 0x05, HidKeyType.keyboard),
   ("C", 0x06, HidKeyType.keyboard), ("D", 0x07, HidKeyType.keyboard),
   ("E", 0x08, HidKeyType.keyboard), ("F", 0x09, HidKeyType.keyboard),
   ("G", 0x0A, HidKeyType.keyboard), ("H", 0x0B, HidKeyType.keyboard),
   ("I", 0x0C, HidKeyType.keyboard), ("J", 0x0D, HidKeyType.keyboard),
   ("K", 0x0E, HidKeyType.keyboard), ("L", 0x0F, HidKeyType.keyboard),
   ("M", 0x10, HidKeyType.keyboard), ("N", 0x11, HidKeyType.keyboard),
   ("O", 0x12, HidKeyType.keyboard), ("P", 0x13, HidKeyType.keyboard),
   ("Q", 0x14, HidKeyType.keyboard), ("R", 0x15, HidKeyType.keyboard),
   ("S", 0x16, HidKeyType.keyboard), ("T", 0x17, HidKeyType.keyboard),
   ("U", 0x18, HidKeyType.keyboard), ("V", 0x19, HidKeyType.keyboard),
   ("W", 0x1A, HidKeyType.keyboard), ("X", 0x1B, HidKeyType.keyboard),
   ("Y", 0x1C, HidKeyType.keyboard), ("Z", 0x1D, HidKeyType.keyboard),
   ("1", 0x1E, HidKeyType.keyboard), ("2", 0x1F, HidKeyType.keyboard),
   ("3", 0x20, HidKeyType.keyboard), ("4", 0x21, HidKeyType.keyboard),
   ("5", 0x22, HidKeyType.keyboard), ("6", 0x23, HidKeyType.keyboard),
   ("7", 0x24, HidKeyType.keyboard), ("8", 0x25, HidKeyType.keyboard),
   ("9", 0x26, HidKeyType.keyboard), ("0", 0x27, HidKeyType.keyboard),
   ("ENTER", 0x28, HidKeyType.keyboard), ("RETURN", 0x28, HidKeyType.keyboard),
   ("ESCAPE", 0x29, HidKeyType.keyboard), ("ESC", 0x29, HidKeyType.keyboard),
   ("BACKSPACE", 0x2A, HidKeyType.keyboard), ("TAB", 0x2B, HidKeyType.keyboard),
   ("SPACE", 0x2C, HidKeyType.keyboard), ("MINUS", 0x2D, HidKeyType.keyboard),
   ("EQUAL", 0x2E, HidKeyType.keyboard),
   ("BRACKET_LEFT", 0x2F, HidKeyType.keyboard),
   ("BRACKET_RIGHT", 0x30, HidKeyType.keyboard),
   ("BACKSLASH", 0x31, HidKeyType.keyboard),
   ("SEMICOLON", 0x33, HidKeyType.keyboard),
   ("APOSTROPHE", 0x34, HidKeyType.keyboard),
   ("QUOTE", 0x34, HidKeyType.keyboard), ("GRAVE", 0x35, HidKeyType.keyboard),
   ("BACKTICK", 0x35, HidKeyType.keyboard), ("COMMA", 0x36, HidKeyType.keyboard),
   ("PERIOD", 0x37, HidKeyType.keyboard), ("DOT", 0x37, HidKeyType.keyboard),
   ("SLASH", 0x38, HidKeyType.keyboard),
   ("CAPS_LOCK", 0x39, HidKeyType.keyboard),
   ("CAPSLOCK", 0x39, HidKeyType.keyboard),
   ("F1", 0x3A, HidKeyType.keyboard), ("F2", 0x3B, HidKeyType.keyboard),
   ("F3", 0x3C, HidKeyType.keyboard), ("F4", 0x3D, HidKeyType.keyboard),
   ("F5", 0x3E, HidKeyType.keyboard), ("F6", 0x3F, HidKeyType.keyboard),
   ("F7", 0x40, HidKeyType.keyboard), ("F8", 0x41, HidKeyType.keyboard),
   ("F9", 0x42, HidKeyType.keyboard), ("F10", 0x43, HidKeyType.keyboard),
   ("F11", 0x44, HidKeyType.keyboard), ("F12", 0x45, HidKeyType.keyboard),
   ("PRINT_SCREEN", 0x46, HidKeyType.keyboard),
   ("PRINTSCREEN", 0x46, HidKeyType.keyboard),
   ("SCROLL_LOCK", 0x47, HidKeyType.keyboard),
   ("SCROLLLOCK", 0x47, HidKeyType.keyboard),
   ("PAUSE", 0x48, HidKeyType.keyboard), ("INSERT", 0x49, HidKeyType.keyboard),
   ("HOME", 0x4A, HidKeyType.keyboard), ("PAGE_UP", 0x4B, HidKeyType.keyboard),
   ("PAGEUP", 0x4B, HidKeyType.keyboard), ("DELETE", 0x4C, HidKeyType.keyboard),
   ("END", 0x4D, HidKeyType.keyboard), ("PAGE_DOWN", 0x4E, HidKeyType.keyboard),
   ("PAGEDOWN", 0x4E, HidKeyType.keyboard),
   ("ARROW_RIGHT", 0x4F, HidKeyType.keyboard),
   ("ARROW_LEFT", 0x50, HidKeyType.keyboard),
   ("ARROW_DOWN", 0x51, HidKeyType.keyboard),
   ("ARROW_UP", 0x52, HidKeyType.keyboard),
   ("RIGHT", 0x4F, HidKeyType.keyboard), ("LEFT", 0x50, HidKeyType.keyboard),
   ("DOWN", 0x51, HidKeyType.keyboard), ("UP", 0x52, HidKeyType.keyboard),
   ("NUM_LOCK", 0x53, HidKeyType.keyboard),
   ("NUMLOCK", 0x53, HidKeyType.keyboard),
   ("KEYPAD_DIVIDE", 0x54, HidKeyType.keyboard),
   ("KEYPAD_MULTIPLY", 0x55, HidKeyType.keyboard),
   ("KEYPAD_SUBTRACT", 0x56, HidKeyType.keyboard),
   ("KEYPAD_ADD", 0x57, HidKeyType.keyboard),
   ("KEYPAD_ENTER", 0x58, HidKeyType.keyboard),
   ("KEYPAD_1", 0x59, HidKeyType.keyboard),
   ("KEYPAD_2", 0x5A, HidKeyType.keyboard),
   ("KEYPAD_3", 0x5B, HidKeyType.keyboard),
   ("KEYPAD_4", 0x5C, HidKeyType.keyboard),
   ("KEYPAD_5", 0x5D, HidKeyType.keyboard),
   ("KEYPAD_6", 0x5E, HidKeyType.keyboard),
   ("KEYPAD_7", 0x5F, HidKeyType.keyboard),
   ("KEYPAD_8", 0x60, HidKeyType.keyboard),
   ("KEYPAD_9", 0x61, HidKeyType.keyboard),
   ("KEYPAD_0", 0x62, HidKeyType.keyboard),
   ("KEYPAD_DECIMAL", 0x63, HidKeyType.keyboard),
   ("CONTROL_LEFT", 0xE0, HidKeyType.keyboard),
   ("CTRL_LEFT", 0xE0, HidKeyType.keyboard),
   ("CTRL", 0xE0, HidKeyType.keyboard),
   ("SHIFT_LEFT", 0xE1, HidKeyType.keyboard),
   ("SHIFT", 0xE1, HidKeyType.keyboard),
   ("ALT_LEFT", 0xE2, HidKeyType.keyboard), ("ALT", 0xE2, HidKeyType.keyboard),
   ("GUI_LEFT", 0xE3, HidKeyType.keyboard), ("GUI", 0xE3, HidKeyType.keyboard),
   ("WIN", 0xE3, HidKeyType.keyboard), ("SUPER", 0xE3, HidKeyType.keyboard),
   ("META", 0xE3, HidKeyType.keyboard),
   ("CONTROL_RIGHT", 0xE4, HidKeyType.keyboard),
   ("CTRL_RIGHT", 0xE4, HidKeyType.keyboard),
   ("SHIFT_RIGHT", 0xE5, HidKeyType.keyboard),
   ("ALT_RIGHT", 0xE6, HidKeyType.keyboard),
   ("ALTGR", 0xE6, HidKeyType.keyboard),
   ("GUI_RIGHT", 0xE7, HidKeyType.keyboard),
   ("PLAY_PAUSE", 0xCD, HidKeyType.consumer),
   ("NEXT_TRACK", 0xB5, HidKeyType.consumer),
   ("PREV_TRACK", 0xB6, HidKeyType.consumer),
   ("STOP", 0xB7, HidKeyType.consumer), ("MUTE", 0xE2, HidKeyType.consumer),
   ("VOLUME_UP", 0xE9, HidKeyType.consumer),
   ("VOLUME_DOWN", 0xEA, HidKeyType.consumer),
   ("VOL_UP", 0xE9, HidKeyType.consumer),
   ("VOL_DOWN", 0xEA, HidKeyType.consumer),
   ("CALCULATOR", 0x192, HidKeyType.consumer),
   ("CALC", 0x192, HidKeyType.consumer),
   ("BROWSER", 0x194, HidKeyType.consumer),
   ("MAIL", 0x18A, HidKeyType.consumer), ("EMAIL", 0x18A, HidKeyType.consumer),
   ("BROWSER_BACK", 0x224, HidKeyType.consumer),
   ("BROWSER_FORWARD", 0x225, HidKeyType.consumer),
   ("BROWSER_REFRESH", 0x227, HidKeyType.consumer),
   ("BROWSER_STOP", 0x226, HidKeyType.consumer),
   ("BROWSER_SEARCH", 0x221, HidKeyType.consumer),
   ("BROWSER_HOME", 0x223, HidKeyType.consumer),
   ("BROWSER_BOOKMARKS", 0x22A, HidKeyType.consumer),
   ("BRIGHTNESS_UP", 0x6F, HidKeyType.consumer),
   ("BRIGHTNESS_DOWN", 0x70, HidKeyType.consumer),
   ("POWER", 0x81, HidKeyType.system),
   ("SLEEP", 0x82, HidKeyType.system),
   ("WAKE", 0x83, HidKeyType.system)]

/-- The single-character branch of `hid_lookup_key` (a-z, A-Z, 0-9). -/
def singleCharLookup (c : Char) : Option HidKeyInfo :=
  if 97 ≤ c.toNat ∧ c.toNat ≤ 122 then
    some ⟨4 + (c.toNat - 97), HidKeyType.keyboard⟩
  else if 65 ≤ c.toNat ∧ c.toNat ≤ 90 then
    some ⟨4 + (c.toNat - 65), HidKeyType.keyboard⟩
  else if 49 ≤ c.toNat ∧ c.toNat ≤ 57 then
    some ⟨30 + (c.toNat - 49), HidKeyType.keyboard⟩
  else if c.toNat = 48 then some ⟨39, HidKeyType.keyboard⟩
  else none

/-- One hex digit (`strtol` base 16 semantics). -/
def hexDigitVal (c : Char) : Option Nat :=
  if 48 ≤ c.toNat ∧ c.toNat ≤ 57 then some (c.toNat - 48)
  else if 97 ≤ c.toNat ∧ c.toNat ≤ 102 then some (c.toNat - 87)
  else if 65 ≤ c.toNat ∧ c.toNat ≤ 70 then some (c.toNat - 55)
  else none

/-- Accumulate hex digits; fail on the first non-digit (the `*endptr`
check requires the whole string to parse). -/
def hexValAux : List Char → Nat → Option Nat
  | [], acc => some acc
  | c :: cs, acc =>
      match hexDigitVal c with
      | some d => hexValAux cs (acc * 16 + d)
      | none => none

/-- Value of the digits following the `0x` prefix (empty rejected). -/
def hexVal (cs : List Char) : Option Nat :=
  match cs with
  | [] => none
  | _ => hexValAux cs 0

/-- ASCII upper-casing of one byte (the character fold `strcasecmp`
performs). -/
def upperNat (n : Nat) : Nat :=
  if 97 ≤ n ∧ n ≤ 122 then n - 32 else n

/-- Case-insensitive table lookup (`strcasecmp` over the uppercase table
names). -/
def tableLookup (name : String) : Option HidKeyInfo :=
  match key_table.find? (fun e =>
      name.data.map (fun c => upperNat c.toNat)
        == e.1.data.map (fun c => upperNat c.toNat)) with
  | some e => some ⟨e.2.1, e.2.2⟩
  | none => none

/-- `hid_lookup_key`: single character, then `0x` hex (keyboard class,
bounded by 0xFFFF, falling through to the table on any failure), then the
case-insensitive table. -/
def hidLookupKey (name : String) : Option HidKeyInfo :=
  match name.data with
  | [] => none
  | [c] =>
      match singleCharLookup c with
      | some ki => some ki
      | none => tableLookup name
  | c0 :: c1 :: rest =>
      if c0 = '0' ∧ (c1 = 'x' ∨ c1 = 'X') then
        match hexVal rest with
        | some v =>
            if v ≤ 65535 then some ⟨v, HidKeyType.keyboard⟩ else tableLookup name
        | none => tableLookup name
      else tableLookup name

/-- `hid_parse_action` (`NULL` and "tap" give TAP). -/
def hidParseAction : Option String → Option HidAction
  | none => some HidAction.tap
  | some s =>
      if s = "tap" then some HidAction.tap
      else if s = "press" then some HidAction.press
      else if s = "release" then some HidAction.release
      else none

/-- `hid_execute_key`: consumer and keyboard classes drive the HID core
(press on TAP/PRESS, release on TAP/RELEASE); the system class returns
false without invoking any core operation. -/
def hidExecuteKey (ki : HidKeyInfo) (a : HidAction) (s : UsbState) : Bool × UsbState :=
  match ki.type with
  | HidKeyType.consumer =>
      let s1 := if a = HidAction.tap ∨ a = HidAction.press then pressConsumer ki.code s else s
      (true, if a = HidAction.tap ∨ a = HidAction.release then releaseConsumer s1 else s1)
  | HidKeyType.system => (false, s)
  | HidKeyType.keyboard =>
      let s1 := if a = HidAction.tap ∨ a = HidAction.press then pressKey ki.code s else s
      (true, if a = HidAction.tap ∨ a = HidAction.release then depressKey ki.code s1 else s1)

/-- A parsed `POST /api/hid/key` body. -/
structure HidKeyReq where
  key : Option String
  type : Option String
  action : Option String
  deriving Repr, DecidableEq

/-- Action parse and execution tail of `process_hid_key`. -/
def hidActionPhase (act : Option String) (ki : HidKeyInfo) (s : UsbState) :
    Option String × UsbState :=
  match hidParseAction act with
  | none => (some "Invalid action", s)
  | some a =>
      if (hidExecuteKey ki a s).1 then (none, (hidExecuteKey ki a s).2)
      else (some "System keys not yet implemented", s)

/-- `process_hid_key` from `src/httpd/httpd.c` (`handle_api_hid_key` in
`src/httpd/httpd_handlers.c` is the same logic): parse JSON, resolve the
key, apply the optional type override, parse the action, execute. -/
def processHidKey (body : Option HidKeyReq) (s : UsbState) : Option String × UsbState :=
  match body with
  | none => (some "Invalid JSON", s)
  | some req =>
      match req.key with
      | none => (some "Missing key field", s)
      | some kname =>
          match hidLookupKey kname with
          | none => (some ("Unknown key: " ++ kname), s)
          | some ki =>
              match req.type with
              | none => hidActionPhase req.action ki s
              | some t =>
                  if t = "consumer" then
                    hidActionPhase req.action { ki with type := HidKeyType.consumer } s
                  else if t = "system" then
                    hidActionPhase req.action { ki with type := HidKeyType.system } s
                  else if t = "keyboard" then hidActionPhase req.action ki s
                  else (some ("Invalid type: " ++ t), s)

/-- C10: POWER, SLEEP and WAKE resolve to the system class; executing any
system-class key returns false and leaves the HID core state untouched;
any `POST /api/hid/key` whose key resolves to the system class (by name,
or via the explicit type "system" override) with a well-formed action is
answered with "System keys not yet implemented" and changes nothing —
while the core's `press_system` is reachable from the framed-channel
ingress (command 0x07 extends the system queue). -/
theorem c10_theorem :
    hidLookupKey "POWER" = some ⟨0x81, HidKeyType.system⟩
    ∧ hidLookupKey "SLEEP" = some ⟨0x82, HidKeyType.system⟩
    ∧ hidLookupKey "WAKE" = some ⟨0x83, HidKeyType.system⟩
    ∧ (∀ (ki : HidKeyInfo) (a : HidAction) (s : UsbState),
        ki.type = HidKeyType.system → hidExecuteKey ki a s = (false, s))
    ∧ (∀ (s : UsbState) (kname : String) (ki : HidKeyInfo) (act : Option String)
          (a : HidAction), hidLookupKey kname = some ki →
        ki.type = HidKeyType.system → hidParseAction act = some a →
        processHidKey (some ⟨some kname, none, act⟩) s
          = (some "System keys not yet implemented", s))
    ∧ (∀ (s : UsbState) (kname : String) (ki : HidKeyInfo) (act : Option String)
          (a : HidAction), hidLookupKey kname = some ki →
        hidParseAction act = some a →
        processHidKey (some ⟨some kname, some "system", act⟩) s
          = (some "System keys not yet implemented", s))
    ∧ (∀ (cur : Nat) (s : UsbState), s.mounted = true → s.fifoSystem.length < 32 →
        (wsProcessHidCommand cur [7, 0x81, 0, 1] s).2.fifoSystem = s.fifoSystem ++ [1]) := by
  refine ⟨by decide, by decide, by decide, ?_, ?_, ?_, ?_⟩
  · intro ki a s ht
    simp [hidExecuteKey, ht]
  · intro s kname ki act a hk ht ha
    simp [processHidKey, hk, hidActionPhase, ha, hidExecuteKey, ht]
  · intro s kname ki act a hk ha
    simp [processHidKey, hk, hidActionPhase, ha, hidExecuteKey]
  · intro cur s hm hlen
    simp [wsProcessHidCommand, pressSystem, hm, queueTryAdd, hlen]
    all_goals decide

/-- C10 witness: POWER by name, a raw hex keyboard code overridden to the
system class, and the framed-channel system command on the freshly mounted
state. -/
theorem c10_witness :
    hidLookupKey "POWER" = some ⟨0x81, HidKeyType.system⟩
    ∧ hidExecuteKey ⟨0x81, HidKeyType.system⟩ HidAction.tap mountedInit
        = (false, mountedInit)
    ∧ processHidKey (some ⟨some "POWER", none, none⟩) mountedInit
        = (some "System keys not yet implemented", mountedInit)
    ∧ processHidKey (some ⟨some "0x81", some "system", some "press"⟩) mountedInit
        = (some "System keys not yet implemented", mountedInit)
    ∧ (wsProcessHidCommand 0 [7, 0x81, 0, 1] mountedInit).2.fifoSystem
        = mountedInit.fifoSystem ++ [1] :=
  ⟨c10_theorem.1,
   c10_theorem.2.2.2.1 ⟨0x81, HidKeyType.system⟩ HidAction.tap mountedInit rfl,
   c10_theorem.2.2.2.2.1 mountedInit "POWER" ⟨0x81, HidKeyType.system⟩ none HidAction.tap
     (by decide) rfl rfl,
   c10_theorem.2.2.2.2.2.1 mountedInit "0x81" ⟨0x81, HidKeyType.keyboard⟩ (some "press")
     HidAction.press (by decide) (by decide),
   c10_theorem.2.2.2.2.2.2 0 mountedInit rfl (by decide)⟩

/-!
### HTTP connection pool and WebSocket session takeover
(`src/httpd/httpd_server.c`, `src/httpd/httpd_websocket.c`) — claim C5

The server owns a fixed pool of `connection_t` slots (`in_use`, `state`)
and `httpd_websocket.c` owns the single `ws_active_conn` pointer (modelled
as an optional index).  Events mirror the lwIP callbacks: `http_accept`
(`conn_alloc` takes the first free slot), HTTP-state work, a successful or
failed `httpd_websocket_upgrade` from `parse_request` (the takeover block
runs first in both cases), `conn_close` without WebSocket cleanup (the
`p == NULL` branch of `http_recv`, `http_sent` completion, poll timeout),
`http_err` (which runs `httpd_websocket_closed` for WebSocket conns), and
a received WebSocket close frame (`ws_close_connection`).  Outward actions
of one event are returned in program order.
-/

/-- `conn_state_t`. -/
inductive ConnSt where
  | recvHeaders | recvBody | sendingResponse | sendingFile | websocket
  deriving Repr, DecidableEq

/-- One pool slot: `in_use` and `state`. -/
structure PoolConn where
  inUse : Bool
  st : ConnSt
  deriving Repr, DecidableEq

/-- A free slot (also the `memset` image `conn_alloc` starts from). -/
def deadConn : PoolConn := ⟨false, ConnSt.recvHeaders⟩

/-- Server state: the pool and `ws_active_conn`. -/
structure SrvState where
  conns : List PoolConn
  active : Option Nat
  deriving Repr, DecidableEq

/-- Boot state: `n` free slots, no active WebSocket. -/
def initSrv (n : Nat) : SrvState := ⟨List.replicate n deadConn, none⟩

/-- Slot access (out-of-pool indices read as free). -/
def connGet (st : SrvState) (i : Nat) : PoolConn := st.conns.getD i deadConn

/-- `conn_alloc`: index of the first free slot. -/
def firstFree (conns : List PoolConn) : Option Nat :=
  conns.findIdx? (fun c => !c.inUse)

/-- Outward-visible actions of a server event, in program order. -/
inductive WsAct where
  | closeFrame (j : Nat) (code : Nat) (reason : String)
  | releaseAll
  | closeConn (j : Nat)
  | send101 (i : Nat)
  | sendStatus (i : Nat)
  | sendErr400 (i : Nat)
  deriving Repr, DecidableEq

/-- Server events (lwIP callbacks and upgrade outcomes). -/
inductive SrvEv where
  | accept
  | work (i : Nat) (t : ConnSt)
  | upgradeOk (i : Nat)
  | upgradeFail (i : Nat)
  | closeEvt (i : Nat)
  | errCb (i : Nat)
  | wsCloseFrame (i : Nat)
  deriving Repr, DecidableEq

/-- The session-takeover prologue of `httpd_websocket_upgrade`: if another
connection is active, send it a 4001 "Session taken over" close frame
(only if it is still in the WebSocket state), release all held keys and
buttons, close its endpoint (`conn_close`), and clear `ws_active_conn` —
all before any handshake byte is sent to the new client. -/
def takeover (st : SrvState) (i : Nat) : SrvState × List WsAct :=
  match st.active with
  | some j =>
      if j ≠ i then
        (⟨st.conns.set j { connGet st j with inUse := false }, none⟩,
         (if (connGet st j).st = ConnSt.websocket
          then [WsAct.closeFrame j 4001 "Session taken over"] else [])
         ++ [WsAct.releaseAll, WsAct.closeConn j])
      else (st, [])
  | none => (st, [])

/-- One server event. -/
def srvStep (st : SrvState) (e : SrvEv) : SrvState × List WsAct :=
  match e with
  | SrvEv.accept =>
      match firstFree st.conns with
      | some j => (⟨st.conns.set j ⟨true, ConnSt.recvHeaders⟩, st.active⟩, [])
      | none => (st, [])
  | SrvEv.work i t =>
      if (connGet st i).inUse = true ∧ (connGet st i).st ≠ ConnSt.websocket
          ∧ t ≠ ConnSt.websocket then
        (⟨st.conns.set i ⟨true, t⟩, st.active⟩, [])
      else (st, [])
  | SrvEv.upgradeOk i =>
      if (connGet st i).inUse = true ∧ (connGet st i).st = ConnSt.recvHeaders then
        ((⟨(takeover st i).1.conns.set i ⟨true, ConnSt.websocket⟩, some i⟩ : SrvState),
         (takeover st i).2 ++ [WsAct.send101 i, WsAct.sendStatus i])
      else (st, [])
  | SrvEv.upgradeFail i =>
      if (connGet st i).inUse = true ∧ (connGet st i).st = ConnSt.recvHeaders then
        ((⟨(takeover st i).1.conns.set i ⟨true, ConnSt.sendingResponse⟩,
           (takeover st i).1.active⟩ : SrvState),
         (takeover st i).2 ++ [WsAct.sendErr400 i])
      else (st, [])
  | SrvEv.closeEvt i =>
      if (connGet st i).inUse = true then
        (⟨st.conns.set i { connGet st i with inUse := false }, st.active⟩, [])
      else (st, [])
  | SrvEv.errCb i =>
      if (connGet st i).inUse = true then
        (⟨st.conns.set i { connGet st i with inUse := false },
          if (connGet st i).st = ConnSt.websocket ∧ st.active = some i
          then none else st.active⟩,
         if (connGet st i).st = ConnSt.websocket ∧ st.active = some i
         then [WsAct.releaseAll] else [])
      else (st, [])
  | SrvEv.wsCloseFrame i =>
      if (connGet st i).inUse = true ∧ (connGet st i).st = ConnSt.websocket then
        (⟨st.conns.set i { connGet st i with inUse := false },
          if st.active = some i then none else st.active⟩,
         if st.active = some i then [WsAct.releaseAll] else [])
      else (st, [])

/-- Run a list of events from a state. -/
def runSrv (evs : List SrvEv) (st : SrvState) : SrvState :=
  evs.foldl (fun s e => (srvStep s e).1) st

/-- The pool invariant behind the claim: every in-use slot in the
WebSocket state is the slot `ws_active_conn` points to (hence there is at
most one). -/
def WsInv (st : SrvState) : Prop :=
  ∀ i, (connGet st i).inUse = true → (connGet st i).st = ConnSt.websocket →
    st.active = some i

lemma getD_set (l : List PoolConn) (j k : Nat) (x d : PoolConn) :
    (l.set j x).getD k d = if k = j ∧ j < l.length then x else l.getD k d := by
  induction l generalizing j k with
  | nil => simp
  | cons hd tl ih =>
      cases j with
      | zero =>
          cases k with
          | zero => simp
          | succ k => simp
      | succ j =>
          cases k with
          | zero => simp
          | succ k =>
              have h1 : ((hd :: tl).set (j + 1) x).getD (k + 1) d
                  = (tl.set j x).getD k d := rfl
              have h2 : (hd :: tl).getD (k + 1) d = tl.getD k d := rfl
              rw [h1, h2, ih j k, List.length_cons]
              by_cases hc : k = j ∧ j < tl.length
              · rw [if_pos hc, if_pos (by omega)]
              · rw [if_neg hc, if_neg (by omega)]

lemma connGet_lt {st : SrvState} {i : Nat} (h : (connGet st i).inUse = true) :
    i < st.conns.length := by
  by_contra hn
  rw [connGet, List.getD_eq_default] at h
  · exact absurd h (by simp [deadConn])
  · omega

lemma replicate_getD (n k : Nat) (x d : PoolConn) :
    (List.replicate n x).getD k d = if k < n then x else d := by
  induction n generalizing k with
  | zero => simp
  | succ n ih =>
      cases k with
      | zero => simp [List.replicate]
      | succ k =>
          have h1 : (List.replicate (n + 1) x).getD (k + 1) d
              = (List.replicate n x).getD k d := rfl
          rw [h1, ih]
          by_cases hk : k < n
          · rw [if_pos hk, if_pos (by omega)]
          · rw [if_neg hk, if_neg (by omega)]

lemma wsInv_init (n : Nat) : WsInv (initSrv n) := by
  intro i h1 _
  exfalso
  rw [connGet] at h1
  simp only [initSrv] at h1
  rw [replicate_getD] at h1
  by_cases hi : i < n <;> simp [hi, deadConn] at h1

lemma takeover_none {st : SrvState} (i : Nat) (h : st.active = none) :
    takeover st i = (st, []) := by
  simp [takeover, h]

lemma takeover_self {st : SrvState} (i : Nat) (h : st.active = some i) :
    takeover st i = (st, []) := by
  simp [takeover, h]

lemma takeover_other {st : SrvState} {j : Nat} (i : Nat) (h : st.active = some j)
    (hne : j ≠ i) :
    takeover st i = (⟨st.conns.set j { connGet st j with inUse := false }, none⟩,
      (if (connGet st j).st = ConnSt.websocket
       then [WsAct.closeFrame j 4001 "Session taken over"] else [])
      ++ [WsAct.releaseAll, WsAct.closeConn j]) := by
  simp [takeover, h, hne]

lemma wsInv_step (st : SrvState) (e : SrvEv) (hinv : WsInv st) :
    WsInv (srvStep st e).1 := by
  cases e with
  | accept =>
      rcases hff : firstFree st.conns with _ | j
      · simpa [srvStep, hff] using hinv
      · intro k hk1 hk2
        simp only [srvStep, hff] at hk1 hk2 ⊢
        rw [connGet] at hk1 hk2
        simp only [getD_set] at hk1 hk2
        by_cases hc : k = j ∧ j < st.conns.length
        · rw [if_pos hc] at hk2; exact absurd hk2 (by simp)
        · rw [if_neg hc] at hk1 hk2
          exact hinv k hk1 hk2
  | work i t =>
      by_cases hg : (connGet st i).inUse = true ∧ (connGet st i).st ≠ ConnSt.websocket
          ∧ t ≠ ConnSt.websocket
      · intro k hk1 hk2
        simp only [srvStep, if_pos hg] at hk1 hk2 ⊢
        rw [connGet] at hk1 hk2
        simp only [getD_set] at hk1 hk2
        by_cases hc : k = i ∧ i < st.conns.length
        · rw [if_pos hc] at hk2; exact absurd hk2 hg.2.2
        · rw [if_neg hc] at hk1 hk2
          exact hinv k hk1 hk2
      · simpa [srvStep, if_neg hg] using hinv
  | upgradeOk i =>
      by_cases hg : (connGet st i).inUse = true ∧ (connGet st i).st = ConnSt.recvHeaders
      · intro k hk1 hk2
        simp only [srvStep, if_pos hg] at hk1 hk2 ⊢
        by_cases hki : k = i
        · simp [hki]
        · exfalso
          rw [connGet] at hk1 hk2
          simp only [getD_set] at hk1 hk2
          rw [if_neg (fun h => hki h.1)] at hk1 hk2
          rcases hact : st.active with _ | j
          · rw [takeover_none i hact] at hk1 hk2
            have := hinv k hk1 hk2
            rw [hact] at this; exact absurd this (by simp)
          · by_cases hji : j = i
            · subst hji
              rw [takeover_self _ hact] at hk1 hk2
              have := hinv k hk1 hk2
              rw [hact] at this
              exact hki (by injection this with h; omega)
            · rw [takeover_other i hact hji] at hk1 hk2
              simp only [getD_set] at hk1 hk2
              by_cases hcj : k = j ∧ j < st.conns.length
              · rw [if_pos hcj] at hk1; exact absurd hk1 (by simp)
              · rw [if_neg hcj] at hk1 hk2
                have := hinv k hk1 hk2
                rw [hact] at this
                injection this with h
                subst h
                by_cases hjl : j < st.conns.length
                · exact hcj ⟨rfl, hjl⟩
                · have := connGet_lt hk1; omega
      · simpa [srvStep, if_neg hg] using hinv
  | upgradeFail i =>
      by_cases hg : (connGet st i).inUse = true ∧ (connGet st i).st = ConnSt.recvHeaders
      · intro k hk1 hk2
        simp only [srvStep, if_pos hg] at hk1 hk2 ⊢
        rw [connGet] at hk1 hk2
        simp only [getD_set] at hk1 hk2
        by_cases hki : k = i ∧ i < (takeover st i).1.conns.length
        · rw [if_pos hki] at hk2; exact absurd hk2 (by simp)
        · rw [if_neg hki] at hk1 hk2
          rcases hact : st.active with _ | j
          · rw [takeover_none i hact] at hk1 hk2 ⊢
            exact hinv k hk1 hk2
          · by_cases hji : j = i
            · subst hji
              rw [takeover_self _ hact] at hk1 hk2 ⊢
              exact hinv k hk1 hk2
            · rw [takeover_other i hact hji] at hk1 hk2 ⊢
              exfalso
              simp only [getD_set] at hk1 hk2
              by_cases hcj : k = j ∧ j < st.conns.length
              · rw [if_pos hcj] at hk1; exact absurd hk1 (by simp)
              · rw [if_neg hcj] at hk1 hk2
                have := hinv k hk1 hk2
                rw [hact] at this
                injection this with h
                subst h
                by_cases hjl : j < st.conns.length
                · exact hcj ⟨rfl, hjl⟩
                · have := connGet_lt hk1; omega
      · simpa [srvStep, if_neg hg] using hinv
  | closeEvt i =>
      by_cases hg : (connGet st i).inUse = true
      · intro k hk1 hk2
        simp only [srvStep, if_pos hg] at hk1 hk2 ⊢
        rw [connGet] at hk1 hk2
        simp only [getD_set] at hk1 hk2
        by_cases hc : k = i ∧ i < st.conns.length
        · rw [if_pos hc] at hk1; exact absurd hk1 (by simp)
        · rw [if_neg hc] at hk1 hk2
          exact hinv k hk1 hk2
      · simpa [srvStep, if_neg hg] using hinv
  | errCb i =>
      by_cases hg : (connGet st i).inUse = true
      · intro k hk1 hk2
        simp only [srvStep, if_pos hg] at hk1 hk2 ⊢
        rw [connGet] at hk1 hk2
        simp only [getD_set] at hk1 hk2
        by_cases hc : k = i ∧ i < st.conns.length
        · rw [if_pos hc] at hk1; exact absurd hk1 (by simp)
        · rw [if_neg hc] at hk1 hk2
          have hk := hinv k hk1 hk2
          have hki : k ≠ i := by
            intro h
            exact hc ⟨h, by subst h; exact connGet_lt hk1⟩
          rw [if_neg]
          · exact hk
          · intro hcon
            have h2 := hcon.2
            rw [hk] at h2
            simp only [Option.some.injEq] at h2
            exact hki h2
      · simpa [srvStep, if_neg hg] using hinv
  | wsCloseFrame i =>
      by_cases hg : (connGet st i).inUse = true ∧ (connGet st i).st = ConnSt.websocket
      · intro k hk1 hk2
        simp only [srvStep, if_pos hg] at hk1 hk2 ⊢
        rw [connGet] at hk1 hk2
        simp only [getD_set] at hk1 hk2
        by_cases hc : k = i ∧ i < st.conns.length
        · rw [if_pos hc] at hk1; exact absurd hk1 (by simp)
        · rw [if_neg hc] at hk1 hk2
          have hk := hinv k hk1 hk2
          have hki : k ≠ i := by
            intro h
            exact hc ⟨h, by subst h; exact connGet_lt hk1⟩
          rw [if_neg]
          · exact hk
          · intro hcon
            rw [hk] at hcon
            simp only [Option.some.injEq] at hcon
            exact hki hcon
      · simpa [srvStep, if_neg hg] using hinv

lemma wsInv_run (evs : List SrvEv) (st : SrvState) (hinv : WsInv st) :
    WsInv (runSrv evs st) := by
  induction evs generalizing st with
  | nil => simpa [runSrv] using hinv
  | cons e evs ih =>
      rw [runSrv, List.foldl_cons]
      exact ih _ (wsInv_step st e hinv)

/-- C5: (1) after any event sequence from boot, every in-use WebSocket
connection is the one `ws_active_conn` designates, so (2) at most one
connection is in the framed-channel state at any time; (3) when an upgrade
succeeds on connection `i` while a WebSocket connection `j` is active, the
emitted actions are, in order: close frame 4001 "Session taken over" to
`j`, release-all into the HID core, close of `j`'s endpoint, and only then
the 101 handshake completion and status frame for `i` — afterwards `i` is
the active WebSocket connection and `j` is no longer in use; (4) the
release-all leaves no key held in the six-slot array. -/
theorem c5_theorem :
    (∀ (evs : List SrvEv) (n : Nat), WsInv (runSrv evs (initSrv n)))
    ∧ (∀ (evs : List SrvEv) (n i j : Nat),
        (connGet (runSrv evs (initSrv n)) i).inUse = true →
        (connGet (runSrv evs (initSrv n)) i).st = ConnSt.websocket →
        (connGet (runSrv evs (initSrv n)) j).inUse = true →
        (connGet (runSrv evs (initSrv n)) j).st = ConnSt.websocket →
        i = j)
    ∧ (∀ (st : SrvState) (i j : Nat), st.active = some j → j ≠ i →
        (connGet st j).st = ConnSt.websocket →
        (connGet st i).inUse = true → (connGet st i).st = ConnSt.recvHeaders →
        (srvStep st (SrvEv.upgradeOk i)).2
          = [WsAct.closeFrame j 4001 "Session taken over", WsAct.releaseAll,
             WsAct.closeConn j, WsAct.send101 i, WsAct.sendStatus i]
        ∧ (srvStep st (SrvEv.upgradeOk i)).1.active = some i
        ∧ (connGet (srvStep st (SrvEv.upgradeOk i)).1 j).inUse = false
        ∧ connGet (srvStep st (SrvEv.upgradeOk i)).1 i = ⟨true, ConnSt.websocket⟩)
    ∧ (∀ s : UsbState, s.mounted = true → s.keycodes.length = 6 →
        ∀ k ∈ (websocketReleaseAll s).keycodes, k = 0) := by
  refine ⟨?_, ?_, ?_, ?_⟩
  · intro evs n
    exact wsInv_run evs _ (wsInv_init n)
  · intro evs n i j h1 h2 h3 h4
    have hinv := wsInv_run evs _ (wsInv_init n)
    have hi := hinv i h1 h2
    have hj := hinv j h3 h4
    rw [hi] at hj
    injection hj
  · intro st i j hact hji hwsj hui hsti
    have hg : (connGet st i).inUse = true ∧ (connGet st i).st = ConnSt.recvHeaders :=
      ⟨hui, hsti⟩
    have hto := takeover_other i hact hji
    refine ⟨?_, ?_, ?_, ?_⟩
    · simp [srvStep, if_pos hg, hto, hwsj]
    · simp [srvStep, if_pos hg]
    · simp only [srvStep, if_pos hg, hto]
      rw [connGet, getD_set, if_neg (fun h => hji h.1), getD_set]
      by_cases hjl : j < st.conns.length
      · rw [if_pos ⟨rfl, hjl⟩]
      · rw [if_neg (fun h => hjl h.2), List.getD_eq_default]
        · rfl
        · omega
    · simp only [srvStep, if_pos hg, hto]
      rw [connGet, getD_set,
        if_pos ⟨rfl, by rw [List.length_set]; exact connGet_lt hui⟩]
  · intro s hm hlen k hk
    rw [websocketReleaseAll, moveMouse_keycodes] at hk
    exact releaseHeldKeys_all_zero s hm hlen k hk

/-- C5 witness: two clients; the second upgrade takes over the first. -/
theorem c5_witness :
    WsInv (runSrv [SrvEv.accept, SrvEv.upgradeOk 0, SrvEv.accept, SrvEv.upgradeOk 1]
      (initSrv 4))
    ∧ (let st := runSrv [SrvEv.accept, SrvEv.upgradeOk 0, SrvEv.accept] (initSrv 4)
       (srvStep st (SrvEv.upgradeOk 1)).2
          = [WsAct.closeFrame 0 4001 "Session taken over", WsAct.releaseAll,
             WsAct.closeConn 0, WsAct.send101 1, WsAct.sendStatus 1]
        ∧ (srvStep st (SrvEv.upgradeOk 1)).1.active = some 1
        ∧ (connGet (srvStep st (SrvEv.upgradeOk 1)).1 0).inUse = false
        ∧ connGet (srvStep st (SrvEv.upgradeOk 1)).1 1 = ⟨true, ConnSt.websocket⟩)
    ∧ (∀ k ∈ (websocketReleaseAll relExState).keycodes, k = 0) := by
  refine ⟨c5_theorem.1 [SrvEv.accept, SrvEv.upgradeOk 0, SrvEv.accept, SrvEv.upgradeOk 1] 4,
    c5_theorem.2.2.1 (runSrv [SrvEv.accept, SrvEv.upgradeOk 0, SrvEv.accept] (initSrv 4))
      1 0 (by decide) (by decide) (by decide) (by decide) (by decide),
    c5_theorem.2.2.2 relExState rfl (by decide)⟩

end NetHid
